import Mathlib

/-!
# Verification of the AtlasP2P crawler's protocol codec, configuration loader
# and GeoIP cache

Shallow embedding of `apps/crawler/src/protocol.py`, `apps/crawler/src/config.py`
and `apps/crawler/src/geoip.py`.

Conventions of the embedding:
* Python `bytes` values are `List Nat`, one `Nat` per byte (each `< 256` for
  genuine byte strings; the arithmetic is written exactly as the code computes
  it, so no bound is assumed unless a theorem needs one).
* Python `str` values are `List Char` (Lean `Char` is a Unicode scalar value,
  matching CPython strings as produced by decoding).
* Fallible Python code (functions that can raise `ValueError`, `struct.error`,
  `IndexError`, `OSError`, `UnicodeDecodeError`) is embedded with `Option` or
  `Except`: `none` / `.error` is "raises".
* `struct.pack`/`struct.unpack` of the formats used by the code (`<I <Q <q <H
  >H <B <?`) are embedded as the explicit base-256 arithmetic they perform.
* `socket.inet_ntoa`, `socket.inet_pton` and `socket.inet_ntop` are the C
  library routines the code calls; they are embedded below following glibc's
  implementations (`inet_ntoa` prints canonical dotted-quad decimal;
  `inet_pton` for AF_INET accepts exactly four dot-separated decimal parts,
  each 0–255, digits only, no leading zeros).
-/

namespace AtlasP2P

/-! ## Byte-level primitives: `struct` pack/unpack -/

/-- `struct.pack("<H", n)`: two bytes little-endian. -/
def pack16LE (n : Nat) : List Nat := [n % 256, n / 256 % 256]

/-- `struct.pack(">H", n)`: two bytes big-endian. -/
def pack16BE (n : Nat) : List Nat := [n / 256 % 256, n % 256]

/-- `struct.pack("<I", n)`: four bytes little-endian. -/
def pack32LE (n : Nat) : List Nat :=
  [n % 256, n / 256 % 256, n / 2 ^ 16 % 256, n / 2 ^ 24 % 256]

/-- `struct.pack("<Q", n)`: eight bytes little-endian. -/
def pack64LE (n : Nat) : List Nat :=
  [n % 256, n / 256 % 256, n / 2 ^ 16 % 256, n / 2 ^ 24 % 256,
   n / 2 ^ 32 % 256, n / 2 ^ 40 % 256, n / 2 ^ 48 % 256, n / 2 ^ 56 % 256]

/-- `struct.pack("<q", i)`: eight bytes little-endian, two's complement. -/
def pack64sLE (i : Int) : List Nat := pack64LE ((i % (2 ^ 64 : Int)).toNat)

/-- `struct.unpack("<H", b)` on the first two bytes. -/
def unpack16LE (l : List Nat) : Nat := l.getD 0 0 + 256 * l.getD 1 0

/-- `struct.unpack(">H", b)` on the first two bytes. -/
def unpack16BE (l : List Nat) : Nat := 256 * l.getD 0 0 + l.getD 1 0

/-- `struct.unpack("<I", b)` on the first four bytes. -/
def unpack32LE (l : List Nat) : Nat :=
  l.getD 0 0 + 256 * l.getD 1 0 + 2 ^ 16 * l.getD 2 0 + 2 ^ 24 * l.getD 3 0

/-- `struct.unpack("<Q", b)` on the first eight bytes. -/
def unpack64LE (l : List Nat) : Nat :=
  l.getD 0 0 + 256 * l.getD 1 0 + 2 ^ 16 * l.getD 2 0 + 2 ^ 24 * l.getD 3 0 +
  2 ^ 32 * l.getD 4 0 + 2 ^ 40 * l.getD 5 0 + 2 ^ 48 * l.getD 6 0 +
  2 ^ 56 * l.getD 7 0

/-- `struct.unpack("<q", b)`: eight bytes little-endian read as a signed
two's-complement integer. -/
def unpack64sLE (l : List Nat) : Int :=
  let u := unpack64LE l
  if u < 2 ^ 63 then (u : Int) else (u : Int) - 2 ^ 64

theorem unpack16BE_pack16BE (n : Nat) (h : n < 2 ^ 16) :
    unpack16BE (pack16BE n) = n := by
  simp only [pack16BE, unpack16BE, List.getD_cons_zero, List.getD_cons_succ]
  omega

theorem unpack32LE_pack32LE (n : Nat) (h : n < 2 ^ 32) :
    unpack32LE (pack32LE n) = n := by
  simp only [pack32LE, unpack32LE, List.getD_cons_zero, List.getD_cons_succ]
  omega

theorem unpack64LE_pack64LE (n : Nat) (h : n < 2 ^ 64) :
    unpack64LE (pack64LE n) = n := by
  simp only [pack64LE, unpack64LE, List.getD_cons_zero, List.getD_cons_succ]
  omega

theorem unpack64sLE_pack64sLE (i : Int) (h0 : -(2 ^ 63) ≤ i) (h1 : i < 2 ^ 63) :
    unpack64sLE (pack64sLE i) = i := by
  unfold pack64sLE unpack64sLE
  rw [unpack64LE_pack64LE _ (by omega)]
  dsimp only
  split <;> omega

theorem length_pack16BE (n : Nat) : (pack16BE n).length = 2 := rfl
theorem length_pack32LE (n : Nat) : (pack32LE n).length = 4 := rfl
theorem length_pack64LE (n : Nat) : (pack64LE n).length = 8 := rfl
theorem length_pack64sLE (i : Int) : (pack64sLE i).length = 8 := rfl

/-! ## List slicing arsenal

Python's `data[a:b]` on `bytes` is `(data.drop a).take (b - a)`; these lemmas
walk such slices through explicit concatenations. -/

theorem take_app (A B : List α) (n : Nat) (h : n = A.length) :
    (A ++ B).take n = A := by
  subst h; simp

theorem drop_app (A B : List α) (n : Nat) (h : n = A.length) :
    (A ++ B).drop n = B := by
  subst h; simp

theorem drop_app_add (A B : List α) (n k : Nat) (h : n = A.length) :
    (A ++ B).drop (n + k) = B.drop k := by
  subst h; rw [List.drop_append_eq_append_drop]
  simp

theorem take_app_of_le (A B : List α) (n : Nat) (h : n ≤ A.length) :
    (A ++ B).take n = A.take n := by
  rw [List.take_append_eq_append_take, Nat.sub_eq_zero_of_le h]
  simp

instance {ε α : Type} [DecidableEq ε] [DecidableEq α] : DecidableEq (Except ε α)
  | .error e, .error f =>
    if h : e = f then .isTrue (h ▸ rfl) else .isFalse (fun hh => h (Except.error.inj hh))
  | .error _, .ok _ => .isFalse (fun hh => Except.noConfusion hh)
  | .ok _, .error _ => .isFalse (fun hh => Except.noConfusion hh)
  | .ok a, .ok b =>
    if h : a = b then .isTrue (h ▸ rfl) else .isFalse (fun hh => h (Except.ok.inj hh))

/-! ## SHA-256 (`hashlib.sha256`)

`double_sha256` in `protocol.py` calls `hashlib.sha256`; the algorithm is
embedded here directly (FIPS 180-4), operating on byte lists, with 32-bit
words represented as `Nat` values kept below `2^32` by explicit reduction. -/

/-- `struct`-style four-byte big-endian word (used by SHA-256 internally). -/
def pack32BE (n : Nat) : List Nat :=
  [n / 2 ^ 24 % 256, n / 2 ^ 16 % 256, n / 256 % 256, n % 256]

/-- Big-endian 32-bit word from the first four bytes. -/
def unpack32BE (l : List Nat) : Nat :=
  2 ^ 24 * l.getD 0 0 + 2 ^ 16 * l.getD 1 0 + 256 * l.getD 2 0 + l.getD 3 0

/-- Big-endian 64-bit encoding (SHA-256 length field). -/
def pack64BE (n : Nat) : List Nat :=
  [n / 2 ^ 56 % 256, n / 2 ^ 48 % 256, n / 2 ^ 40 % 256, n / 2 ^ 32 % 256,
   n / 2 ^ 24 % 256, n / 2 ^ 16 % 256, n / 256 % 256, n % 256]

/-- Rotate a 32-bit word right by `n` bits. -/
def rotr32 (n x : Nat) : Nat := (x / 2 ^ n + x % 2 ^ n * 2 ^ (32 - n)) % 2 ^ 32

/-- The eight-word SHA-256 working state. -/
structure Sha256State where
  a : Nat
  b : Nat
  c : Nat
  d : Nat
  e : Nat
  f : Nat
  g : Nat
  h : Nat

def sha256Init : Sha256State :=
  ⟨1779033703, 3144134277, 1013904242, 2773480762,
   1359893119, 2600822924, 528734635, 1541459225⟩

def sha256K : List Nat :=
  [1116352408, 1899447441, 3049323471, 3921009573, 961987163, 1508970993,
   2453635748, 2870763221, 3624381080, 310598401, 607225278, 1426881987,
   1925078388, 2162078206, 2614888103, 3248222580, 3835390401, 4022224774,
   264347078, 604807628, 770255983, 1249150122, 1555081692, 1996064986,
   2554220882, 2821834349, 2952996808, 3210313671, 3336571891, 3584528711,
   113926993, 338241895, 666307205, 773529912, 1294757372, 1396182291,
   1695183700, 1986661051, 2177026350, 2456956037, 2730485921, 2820302411,
   3259730800, 3345764771, 3516065817, 3600352804, 4094571909, 275423344,
   430227734, 506948616, 659060556, 883997877, 958139571, 1322822218,
   1537002063, 1747873779, 1955562222, 2024104815, 2227730452, 2361852424,
   2428436474, 2756734187, 3204031479, 3329325298]

/-- One step of the message-schedule extension (words 16–63). -/
def sha256ScheduleStep (w : List Nat) : List Nat :=
  let s0 := Nat.xor (rotr32 7 (w.getD (w.length - 15) 0))
      (Nat.xor (rotr32 18 (w.getD (w.length - 15) 0)) (w.getD (w.length - 15) 0 / 2 ^ 3))
  let s1 := Nat.xor (rotr32 17 (w.getD (w.length - 2) 0))
      (Nat.xor (rotr32 19 (w.getD (w.length - 2) 0)) (w.getD (w.length - 2) 0 / 2 ^ 10))
  w ++ [(w.getD (w.length - 16) 0 + s0 + w.getD (w.length - 7) 0 + s1) % 2 ^ 32]

/-- One compression round. -/
def sha256Round (st : Sha256State) (k w : Nat) : Sha256State :=
  let S1 := Nat.xor (rotr32 6 st.e) (Nat.xor (rotr32 11 st.e) (rotr32 25 st.e))
  let ch := Nat.xor (Nat.land st.e st.f) (Nat.land (2 ^ 32 - 1 - st.e) st.g)
  let t1 := (st.h + S1 + ch + k + w) % 2 ^ 32
  let S0 := Nat.xor (rotr32 2 st.a) (Nat.xor (rotr32 13 st.a) (rotr32 22 st.a))
  let maj := Nat.xor (Nat.land st.a st.b)
      (Nat.xor (Nat.land st.a st.c) (Nat.land st.b st.c))
  let t2 := (S0 + maj) % 2 ^ 32
  ⟨(t1 + t2) % 2 ^ 32, st.a, st.b, st.c, (st.d + t1) % 2 ^ 32, st.e, st.f, st.g⟩

/-- Compress one 64-byte block into the running state. -/
def sha256Block (st : Sha256State) (block : List Nat) : Sha256State :=
  let w16 := (List.range 16).map fun i => unpack32BE ((block.drop (4 * i)).take 4)
  let w := (List.range 48).foldl (fun acc _ => sha256ScheduleStep acc) w16
  let fin := (sha256K.zip w).foldl (fun s kw => sha256Round s kw.1 kw.2) st
  ⟨(st.a + fin.a) % 2 ^ 32, (st.b + fin.b) % 2 ^ 32, (st.c + fin.c) % 2 ^ 32,
   (st.d + fin.d) % 2 ^ 32, (st.e + fin.e) % 2 ^ 32, (st.f + fin.f) % 2 ^ 32,
   (st.g + fin.g) % 2 ^ 32, (st.h + fin.h) % 2 ^ 32⟩

/-- Split a byte list into 64-byte chunks. -/
def toBlocks (l : List Nat) : List (List Nat) :=
  if h : l = [] then [] else l.take 64 :: toBlocks (l.drop 64)
termination_by l.length
decreasing_by
  simp only [List.length_drop]
  have : 0 < l.length := List.length_pos.mpr h
  omega

/-- Serialize the state to the 32-byte digest. -/
def sha256Digest (st : Sha256State) : List Nat :=
  pack32BE st.a ++ pack32BE st.b ++ pack32BE st.c ++ pack32BE st.d ++
  pack32BE st.e ++ pack32BE st.f ++ pack32BE st.g ++ pack32BE st.h

/-- `hashlib.sha256(data).digest()`. -/
def sha256 (data : List Nat) : List Nat :=
  let padded := data ++ 0x80 :: List.replicate ((120 - (data.length + 1) % 64) % 64) 0
      ++ pack64BE (8 * data.length)
  sha256Digest ((toBlocks padded).foldl sha256Block sha256Init)

/-- `double_sha256` (`protocol.py:48`): SHA-256 applied twice. -/
def double_sha256 (data : List Nat) : List Nat := sha256 (sha256 data)

theorem length_sha256Digest (st : Sha256State) : (sha256Digest st).length = 32 := rfl

theorem length_sha256 (data : List Nat) : (sha256 data).length = 32 :=
  length_sha256Digest _

theorem length_double_sha256 (data : List Nat) : (double_sha256 data).length = 32 :=
  length_sha256 _

/-! ## Text codecs

Python `str` is modelled as `List Char` (Unicode scalar values).
`str.encode("ascii")` raises `UnicodeEncodeError` on code points ≥ 128;
`bytes.decode("ascii")` raises on bytes ≥ 128; `str.encode("utf-8")` is total
on scalar values; `bytes.decode("utf-8", errors="replace")` substitutes U+FFFD
for maximal invalid subparts (CPython follows the Unicode recommendation). -/

/-- `command.encode("ascii")`. -/
def encodeAscii (s : List Char) : Option (List Nat) :=
  if s.all (fun c => c.toNat < 128) then some (s.map (fun c => c.toNat)) else none

/-- `b.decode("ascii")`. -/
def decodeAscii (l : List Nat) : Option (List Char) :=
  if l.all (fun b => b < 128) then some (l.map (fun b => Char.ofNat b)) else none

theorem decodeAscii_encodeAscii (s : List Char) (h : ∀ c ∈ s, c.toNat < 128) :
    (encodeAscii s).bind decodeAscii = some s := by
  unfold encodeAscii decodeAscii
  rw [if_pos (by simpa [List.all_eq_true] using h)]
  simp only [Option.some_bind]
  rw [if_pos (by simpa [List.all_eq_true] using h)]
  simp [List.map_map, Function.comp_def, Char.ofNat_toNat]

/-- `s.encode("utf-8")` for one scalar value. -/
def utf8EncodeChar (c : Char) : List Nat :=
  let n := c.toNat
  if n < 0x80 then [n]
  else if n < 0x800 then [0xC0 + n / 64, 0x80 + n % 64]
  else if n < 0x10000 then [0xE0 + n / 4096, 0x80 + n / 64 % 64, 0x80 + n % 64]
  else [0xF0 + n / 0x40000, 0x80 + n / 4096 % 64, 0x80 + n / 64 % 64, 0x80 + n % 64]

/-- `s.encode("utf-8")`. -/
def utf8Encode (s : List Char) : List Nat := (s.map utf8EncodeChar).flatten

/-- The first-continuation-byte window of a 3-byte lead (tight windows for
0xE0 and 0xED exclude overlong forms and surrogates). -/
def utf8Cont1of3 (b b1 : Nat) : Prop :=
  if b = 0xE0 then 0xA0 ≤ b1 ∧ b1 < 0xC0
  else if b = 0xED then 0x80 ≤ b1 ∧ b1 < 0xA0
  else 0x80 ≤ b1 ∧ b1 < 0xC0

instance (b b1 : Nat) : Decidable (utf8Cont1of3 b b1) := by
  unfold utf8Cont1of3; infer_instance

/-- The first-continuation-byte window of a 4-byte lead (tight windows for
0xF0 and 0xF4 exclude overlong forms and values above U+10FFFF). -/
def utf8Cont1of4 (b b1 : Nat) : Prop :=
  if b = 0xF0 then 0x90 ≤ b1 ∧ b1 < 0xC0
  else if b = 0xF4 then 0x80 ≤ b1 ∧ b1 < 0x90
  else 0x80 ≤ b1 ∧ b1 < 0xC0

instance (b b1 : Nat) : Decidable (utf8Cont1of4 b b1) := by
  unfold utf8Cont1of4; infer_instance

/-- The U+FFFD replacement character. -/
def replChar : Char := Char.ofNat 0xFFFD

/-- `b.decode("utf-8", errors="replace")`: one U+FFFD per maximal invalid
subpart, as CPython emits. -/
def utf8DecodeReplace : List Nat → List Char
  | [] => []
  | b :: rest =>
    if b < 0x80 then Char.ofNat b :: utf8DecodeReplace rest
    else if b < 0xC2 then replChar :: utf8DecodeReplace rest
    else if b < 0xE0 then
      match rest with
      | [] => [replChar]
      | b1 :: rest1 =>
        if 0x80 ≤ b1 ∧ b1 < 0xC0 then
          Char.ofNat ((b - 0xC0) * 64 + (b1 - 0x80)) :: utf8DecodeReplace rest1
        else replChar :: utf8DecodeReplace (b1 :: rest1)
    else if b < 0xF0 then
      match rest with
      | [] => [replChar]
      | b1 :: rest1 =>
        if utf8Cont1of3 b b1 then
          match rest1 with
          | [] => [replChar]
          | b2 :: rest2 =>
            if 0x80 ≤ b2 ∧ b2 < 0xC0 then
              Char.ofNat ((b - 0xE0) * 4096 + (b1 - 0x80) * 64 + (b2 - 0x80)) ::
                utf8DecodeReplace rest2
            else replChar :: utf8DecodeReplace (b2 :: rest2)
        else replChar :: utf8DecodeReplace (b1 :: rest1)
    else if b < 0xF5 then
      match rest with
      | [] => [replChar]
      | b1 :: rest1 =>
        if utf8Cont1of4 b b1 then
          match rest1 with
          | [] => [replChar]
          | b2 :: rest2 =>
            if 0x80 ≤ b2 ∧ b2 < 0xC0 then
              match rest2 with
              | [] => [replChar]
              | b3 :: rest3 =>
                if 0x80 ≤ b3 ∧ b3 < 0xC0 then
                  Char.ofNat ((b - 0xF0) * 0x40000 + (b1 - 0x80) * 4096 +
                      (b2 - 0x80) * 64 + (b3 - 0x80)) :: utf8DecodeReplace rest3
                else replChar :: utf8DecodeReplace (b3 :: rest3)
            else replChar :: utf8DecodeReplace (b2 :: rest2)
        else replChar :: utf8DecodeReplace (b1 :: rest1)
    else replChar :: utf8DecodeReplace rest

theorem utf8DecodeReplace_encodeChar (c : Char) (rest : List Nat) :
    utf8DecodeReplace (utf8EncodeChar c ++ rest) = c :: utf8DecodeReplace rest := by
  have hv : c.toNat < 0xD800 ∨ (0xDFFF < c.toNat ∧ c.toNat < 0x110000) := by
    have h := c.valid
    have hh : c.toNat = c.val.toNat := rfl
    rcases h with h | h
    · left; omega
    · right; omega
  unfold utf8EncodeChar
  by_cases h1 : c.toNat < 0x80
  · rw [if_pos h1]
    simp only [List.cons_append, List.nil_append]
    rw [utf8DecodeReplace.eq_def]
    dsimp only
    rw [if_pos h1, Char.ofNat_toNat]
  · rw [if_neg h1]
    by_cases h2 : c.toNat < 0x800
    · rw [if_pos h2]
      simp only [List.cons_append, List.nil_append]
      rw [utf8DecodeReplace.eq_def]
      dsimp only
      rw [if_neg (by omega), if_neg (by omega), if_pos (by omega),
        if_pos (by omega)]
      have hval : (0xC0 + c.toNat / 64 - 0xC0) * 64 + (0x80 + c.toNat % 64 - 0x80)
          = c.toNat := by omega
      rw [hval, Char.ofNat_toNat]
    · rw [if_neg h2]
      by_cases h3 : c.toNat < 0x10000
      · rw [if_pos h3]
        simp only [List.cons_append, List.nil_append]
        rw [utf8DecodeReplace.eq_def]
        dsimp only
        rw [if_neg (by omega), if_neg (by omega), if_neg (by omega),
          if_pos (by omega)]
        rw [if_pos (show utf8Cont1of3 _ _ by
          unfold utf8Cont1of3
          split
          · next heq => refine ⟨by omega, by omega⟩
          · split
            · next heq => refine ⟨by omega, by omega⟩
            · refine ⟨by omega, by omega⟩)]
        rw [if_pos (by omega)]
        have hval : (0xE0 + c.toNat / 4096 - 0xE0) * 4096 +
            (0x80 + c.toNat / 64 % 64 - 0x80) * 64 + (0x80 + c.toNat % 64 - 0x80)
            = c.toNat := by omega
        rw [hval, Char.ofNat_toNat]
      · rw [if_neg h3]
        simp only [List.cons_append, List.nil_append]
        rw [utf8DecodeReplace.eq_def]
        dsimp only
        rw [if_neg (by omega), if_neg (by omega), if_neg (by omega),
          if_neg (by omega), if_pos (by omega)]
        rw [if_pos (show utf8Cont1of4 _ _ by
          unfold utf8Cont1of4
          split
          · next heq => refine ⟨by omega, by omega⟩
          · split
            · next heq => refine ⟨by omega, by omega⟩
            · refine ⟨by omega, by omega⟩)]
        rw [if_pos (by omega), if_pos (by omega)]
        have hval : (0xF0 + c.toNat / 0x40000 - 0xF0) * 0x40000 +
            (0x80 + c.toNat / 4096 % 64 - 0x80) * 4096 +
            (0x80 + c.toNat / 64 % 64 - 0x80) * 64 + (0x80 + c.toNat % 64 - 0x80)
            = c.toNat := by omega
        rw [hval, Char.ofNat_toNat]

/-- On UTF-8 output of the total encoder the replacement decoder is the
identity: `s.encode("utf-8").decode("utf-8", errors="replace") == s`. -/
theorem utf8DecodeReplace_utf8Encode (s : List Char) :
    utf8DecodeReplace (utf8Encode s) = s := by
  induction s with
  | nil => rfl
  | cons c cs ih =>
    show utf8DecodeReplace ((utf8EncodeChar c :: cs.map utf8EncodeChar).flatten) = _
    rw [List.flatten_cons, utf8DecodeReplace_encodeChar]
    exact congrArg (c :: ·) ih

/-! ## IP address text forms

`protocol.py` calls `socket.inet_ntoa`, `socket.inet_pton` and
`socket.inet_ntop`; these wrap the C library routines, embedded here after
glibc's implementations. -/

/-- `printf("%u")` rendering of one octet 0–255 (used by `inet_ntoa`). -/
def octetChars (n : Nat) : List Char :=
  if n < 10 then [Nat.digitChar n]
  else if n < 100 then [Nat.digitChar (n / 10), Nat.digitChar (n % 10)]
  else [Nat.digitChar (n / 100), Nat.digitChar (n / 10 % 10), Nat.digitChar (n % 10)]

/-- `socket.inet_ntoa`: canonical dotted-quad of four bytes. -/
def inet_ntoa : List Nat → List Char
  | [a, b, c, d] =>
    octetChars a ++ '.' :: octetChars b ++ '.' :: octetChars c ++ '.' :: octetChars d
  | _ => []

/-- Split a character list at every occurrence of `sep` (like `str.split`). -/
def splitOnChar (sep : Char) : List Char → List (List Char)
  | [] => [[]]
  | c :: cs =>
    if c = sep then [] :: splitOnChar sep cs
    else
      match splitOnChar sep cs with
      | [] => [[c]]
      | p :: ps => (c :: p) :: ps

/-- Rejoin parts with a separator character. -/
def joinWithChar (sep : Char) : List (List Char) → List Char
  | [] => []
  | [p] => p
  | p :: ps => p ++ sep :: joinWithChar sep ps

theorem splitOnChar_ne_nil (sep : Char) (l : List Char) : splitOnChar sep l ≠ [] := by
  cases l with
  | nil => simp [splitOnChar]
  | cons c cs =>
    unfold splitOnChar
    split
    · simp
    · split <;> simp

theorem joinWithChar_splitOnChar (sep : Char) (l : List Char) :
    joinWithChar sep (splitOnChar sep l) = l := by
  induction l with
  | nil => rfl
  | cons c cs ih =>
    unfold splitOnChar
    by_cases hc : c = sep
    · rw [if_pos hc]
      cases hsp : splitOnChar sep cs with
      | nil => exact absurd hsp (splitOnChar_ne_nil sep cs)
      | cons p ps =>
        rw [hsp] at ih
        show joinWithChar sep ([] :: p :: ps) = c :: cs
        unfold joinWithChar
        rw [hc]
        simp only [List.nil_append]
        exact congrArg (sep :: ·) ih
    · rw [if_neg hc]
      cases hsp : splitOnChar sep cs with
      | nil => exact absurd hsp (splitOnChar_ne_nil sep cs)
      | cons p ps =>
        rw [hsp] at ih
        cases ps with
        | nil => simpa [joinWithChar] using congrArg (c :: ·) ih
        | cons q qs =>
          show joinWithChar sep ((c :: p) :: q :: qs) = c :: cs
          unfold joinWithChar
          unfold joinWithChar at ih
          simpa using congrArg (c :: ·) ih

/-- Decimal value of a digit string (accumulator style, as glibc's
`inet_pton4` computes it). -/
def digitsVal (l : List Char) : Nat :=
  l.foldl (fun acc c => acc * 10 + (c.toNat - 48)) 0

/-- One dotted-quad component, as accepted by glibc `inet_pton4`: nonempty,
decimal digits only, no leading zero, value at most 255. -/
def parseOctet (l : List Char) : Option Nat :=
  if l ≠ [] ∧ (∀ c ∈ l, 48 ≤ c.toNat ∧ c.toNat ≤ 57) ∧
      (l.length = 1 ∨ l.head? ≠ some '0') ∧ digitsVal l ≤ 255 then
    some (digitsVal l)
  else none

/-- `socket.inet_pton(AF_INET, s)` (glibc): exactly four dot-separated
components, each a plain decimal 0–255 with no leading zeros. -/
def inet_pton4 (s : List Char) : Option (List Nat) :=
  match splitOnChar '.' s with
  | [p1, p2, p3, p4] =>
    match parseOctet p1, parseOctet p2, parseOctet p3, parseOctet p4 with
    | some a, some b, some c, some d => some [a, b, c, d]
    | _, _, _, _ => none
  | _ => none

theorem digitsVal_cons (c : Char) (t : List Char) :
    digitsVal (c :: t) = t.foldl (fun acc ch => acc * 10 + (ch.toNat - 48)) (c.toNat - 48) := by
  simp [digitsVal]

theorem foldl_digits_ge (t : List Char) (acc : Nat) :
    acc * 10 ^ t.length ≤ t.foldl (fun a ch => a * 10 + (ch.toNat - 48)) acc := by
  induction t generalizing acc with
  | nil => simp
  | cons c cs ih =>
    calc acc * 10 ^ (c :: cs).length = acc * 10 * 10 ^ cs.length := by
          simp [Nat.pow_succ]; ring
    _ ≤ (acc * 10 + (c.toNat - 48)) * 10 ^ cs.length := by
        exact Nat.mul_le_mul_right _ (by omega)
    _ ≤ _ := ih _

theorem digitChar_ofNat (d : Nat) (h : d ≤ 9) :
    Nat.digitChar d = Char.ofNat (48 + d) := by
  interval_cases d <;> rfl

theorem digitChar_toNat_sub (c : Char) (h1 : 48 ≤ c.toNat) (h2 : c.toNat ≤ 57) :
    Nat.digitChar (c.toNat - 48) = c := by
  rw [digitChar_ofNat _ (by omega), show 48 + (c.toNat - 48) = c.toNat by omega,
    Char.ofNat_toNat]

theorem head_digit_pos (c : Char) (t : List Char)
    (hlead : (c :: t).length = 1 ∨ (c :: t).head? ≠ some '0') (hlen : t ≠ []) :
    c.toNat ≠ 48 := by
  rcases hlead with hx | hx
  · exact absurd (by simpa using hx) hlen
  · intro h48
    apply hx
    have : c = Char.ofNat 48 := by rw [← h48, Char.ofNat_toNat]
    simp [this]

theorem octetChars_parseOctet (l : List Char) (n : Nat) (h : parseOctet l = some n) :
    octetChars n = l := by
  unfold parseOctet at h
  split at h
  case isFalse => exact absurd h (by simp)
  case isTrue hc =>
    obtain ⟨hne, hdig, hlead, hle⟩ := hc
    obtain rfl : digitsVal l = n := by injection h
    have hlen3 : l.length ≤ 3 := by
      by_contra hlen
      cases l with
      | nil => exact hne rfl
      | cons c t =>
        have hd := hdig c (by simp)
        have hc1 : c.toNat ≠ 48 := head_digit_pos c t hlead (by
          intro ht; rw [ht] at hlen; simp at hlen)
        have hge := foldl_digits_ge t (c.toNat - 48)
        rw [digitsVal_cons] at hle
        have h10 : (10 : Nat) ^ 3 ≤ 10 ^ t.length := by
          apply Nat.pow_le_pow_right (by omega)
          simp at hlen; omega
        have hmul : 10 ^ t.length ≤ (c.toNat - 48) * 10 ^ t.length :=
          Nat.le_mul_of_pos_left _ (by omega)
        omega
    cases l with
    | nil => exact absurd rfl hne
    | cons c1 r1 =>
      cases r1 with
      | nil =>
        have h1 := hdig c1 (by simp)
        have hv : digitsVal [c1] = c1.toNat - 48 := by
          unfold digitsVal; simp only [List.foldl_cons, List.foldl_nil]; ring
        rw [hv]
        unfold octetChars
        rw [if_pos (by omega)]
        rw [digitChar_toNat_sub c1 h1.1 h1.2]
      | cons c2 r2 =>
        cases r2 with
        | nil =>
          have h1 := hdig c1 (by simp)
          have h2 := hdig c2 (by simp)
          have hc1 : c1.toNat ≠ 48 := head_digit_pos c1 [c2] hlead (by simp)
          have hv : digitsVal [c1, c2] = (c1.toNat - 48) * 10 + (c2.toNat - 48) := by
            unfold digitsVal; simp only [List.foldl_cons, List.foldl_nil]; ring
          rw [hv]
          unfold octetChars
          rw [if_neg (by omega), if_pos (by omega)]
          rw [show ((c1.toNat - 48) * 10 + (c2.toNat - 48)) / 10 = c1.toNat - 48 by omega,
            show ((c1.toNat - 48) * 10 + (c2.toNat - 48)) % 10 = c2.toNat - 48 by omega,
            digitChar_toNat_sub c1 h1.1 h1.2, digitChar_toNat_sub c2 h2.1 h2.2]
        | cons c3 r3 =>
          cases r3 with
          | cons c4 r4 => simp at hlen3
          | nil =>
            have h1 := hdig c1 (by simp)
            have h2 := hdig c2 (by simp)
            have h3 := hdig c3 (by simp)
            have hc1 : c1.toNat ≠ 48 := head_digit_pos c1 [c2, c3] hlead (by simp)
            have hv : digitsVal [c1, c2, c3] =
                (c1.toNat - 48) * 100 + (c2.toNat - 48) * 10 + (c3.toNat - 48) := by
              unfold digitsVal; simp only [List.foldl_cons, List.foldl_nil]; ring
            rw [hv] at hle ⊢
            unfold octetChars
            rw [if_neg (by omega), if_neg (by omega)]
            rw [show ((c1.toNat - 48) * 100 + (c2.toNat - 48) * 10 + (c3.toNat - 48)) / 100
                  = c1.toNat - 48 by omega,
              show ((c1.toNat - 48) * 100 + (c2.toNat - 48) * 10 + (c3.toNat - 48)) / 10 % 10
                  = c2.toNat - 48 by omega,
              show ((c1.toNat - 48) * 100 + (c2.toNat - 48) * 10 + (c3.toNat - 48)) % 10
                  = c3.toNat - 48 by omega,
              digitChar_toNat_sub c1 h1.1 h1.2, digitChar_toNat_sub c2 h2.1 h2.2,
              digitChar_toNat_sub c3 h3.1 h3.2]

/-- Printing an address parsed by `inet_pton4` with `inet_ntoa` gives back the
input string: accepted dotted-quads are exactly the canonical ones. -/
theorem inet_ntoa_inet_pton4 (s : List Char) (bs : List Nat)
    (h : inet_pton4 s = some bs) : inet_ntoa bs = s := by
  unfold inet_pton4 at h
  split at h
  case h_2 => exact absurd h (by simp)
  case h_1 p1 p2 p3 p4 hsp =>
    split at h
    case h_2 => exact absurd h (by simp)
    case h_1 a b c d ha hb hc hd =>
      obtain rfl : [a, b, c, d] = bs := by injection h
      have e1 := octetChars_parseOctet _ _ ha
      have e2 := octetChars_parseOctet _ _ hb
      have e3 := octetChars_parseOctet _ _ hc
      have e4 := octetChars_parseOctet _ _ hd
      have hj := joinWithChar_splitOnChar '.' s
      rw [hsp] at hj
      unfold joinWithChar at hj
      show octetChars a ++ '.' :: octetChars b ++ '.' :: octetChars c ++ '.' :: octetChars d = s
      rw [e1, e2, e3, e4]
      simpa using hj

/-- Value of a hexadecimal digit character. -/
def hexVal (c : Char) : Nat :=
  if c.toNat ≤ 57 then c.toNat - 48
  else if c.toNat ≤ 70 then c.toNat - 55
  else c.toNat - 87

/-- Is `c` a hexadecimal digit? -/
def isHexDigitChar (c : Char) : Prop :=
  (48 ≤ c.toNat ∧ c.toNat ≤ 57) ∨ (65 ≤ c.toNat ∧ c.toNat ≤ 70) ∨
  (97 ≤ c.toNat ∧ c.toNat ≤ 102)

instance (c : Char) : Decidable (isHexDigitChar c) := by
  unfold isHexDigitChar; infer_instance

/-- One hex group of an IPv6 literal: one to four hex digits (glibc
`inet_pton6` rejects a fifth digit). -/
def parseHex4 (l : List Char) : Option Nat :=
  if l ≠ [] ∧ l.length ≤ 4 ∧ ∀ c ∈ l, isHexDigitChar c then
    some (l.foldl (fun acc c => acc * 16 + hexVal c) 0)
  else none

/-- Parse the colon-separated groups of an IPv6 literal into 16-bit words.
A trailing dotted-quad (allowed only when the group is the final token of
the whole literal) contributes two words. -/
def parseGroupList (allowV4 : Bool) : List (List Char) → Option (List Nat)
  | [] => some []
  | [p] =>
    if ('.' ∈ p) && allowV4 then
      (inet_pton4 p).map fun bs =>
        [256 * bs.getD 0 0 + bs.getD 1 0, 256 * bs.getD 2 0 + bs.getD 3 0]
    else (parseHex4 p).map ([·])
  | p :: ps =>
    (parseHex4 p).bind fun w => (parseGroupList allowV4 ps).map (w :: ·)

/-- `socket.inet_pton(AF_INET6, s)` (glibc): groups of 1–4 hex digits
separated by colons, at most one `::` gap expanding to the zero words needed
to reach eight, and an optional trailing embedded dotted-quad. -/
def inet_pton6 (s : List Char) : Option (List Nat) :=
  let ps := splitOnChar ':' s
  -- a leading empty part is legal only as the start of a leading "::"
  let step1 : Option (List (List Char)) :=
    match ps with
    | [] :: rest =>
      match rest with
      | [] :: _ => some rest
      | _ => none
    | _ => some ps
  step1.bind fun ps1 =>
    -- a trailing empty part is legal only as the end of a trailing "::"
    let step2 : Option (List (List Char)) :=
      match ps1.reverse with
      | [] :: ([] :: _) => some (ps1.reverse.tail.reverse)
      | [] :: _ => none
      | _ => some ps1
    step2.bind fun ps2 =>
      match ps2.count [] with
      | 0 =>
        (parseGroupList true ps2).bind fun ws =>
          if ws.length = 8 then some ((ws.map fun w => [w / 256, w % 256]).flatten)
          else none
      | 1 =>
        let i := ps2.findIdx (· = [])
        let left := ps2.take i
        let right := ps2.drop (i + 1)
        (parseGroupList false left).bind fun lw =>
          (parseGroupList true right).bind fun rw =>
            if lw.length + rw.length ≤ 7 then
              some (((lw ++ List.replicate (8 - (lw.length + rw.length)) 0 ++ rw).map
                fun w => [w / 256, w % 256]).flatten)
            else none
      | _ => none

/-- `printf("%x")` rendering of one 16-bit word (used by `inet_ntop`). -/
def hexChars (n : Nat) : List Char :=
  if n < 16 then [Nat.digitChar n]
  else if n < 256 then [Nat.digitChar (n / 16), Nat.digitChar (n % 16)]
  else if n < 4096 then
    [Nat.digitChar (n / 256), Nat.digitChar (n / 16 % 16), Nat.digitChar (n % 16)]
  else
    [Nat.digitChar (n / 4096 % 16), Nat.digitChar (n / 256 % 16),
     Nat.digitChar (n / 16 % 16), Nat.digitChar (n % 16)]

/-- Find the longest (leftmost on ties) run of zero words, as glibc
`inet_ntop6` does; runs of length one are not compressed. -/
def bestZeroRun (words : List Nat) : Option (Nat × Nat) :=
  let folded := (List.range words.length).foldl
    (fun (st : Option (Nat × Nat) × Option (Nat × Nat)) i =>
      if words.getD i 1 = 0 then
        let cur := match st.1 with
          | none => (i, 1)
          | some (s, len) => (s, len + 1)
        let best := match st.2 with
          | none => some cur
          | some (bs, bl) => if bl < cur.2 then some cur else some (bs, bl)
        (some cur, best)
      else (none, st.2))
    (none, none)
  match folded.2 with
  | some (s, len) => if 2 ≤ len then some (s, len) else none
  | none => none

/-- `socket.inet_ntop(AF_INET6, b)` (glibc): lowercase hex groups, the best
zero run compressed to `::`, and the two IPv4-embedded special forms. -/
def inet_ntop6 (bs : List Nat) : List Char :=
  let words := (List.range 8).map fun i => 256 * bs.getD (2 * i) 0 + bs.getD (2 * i + 1) 0
  match bestZeroRun words with
  | none => joinWithChar ':' (words.map hexChars)
  | some (base, len) =>
    if base = 0 && (len == 6 || (len == 5 && words.getD 5 0 == 0xFFFF)) then
      ':' :: ':' :: (if len = 5 then ['f', 'f', 'f', 'f', ':'] else []) ++
        inet_ntoa (bs.drop 12)
    else
      joinWithChar ':' ((words.take base).map hexChars) ++ ':' :: ':' ::
        joinWithChar ':' ((words.drop (base + len)).map hexChars)

/-! ## Protocol codec (`protocol.py`)

`NetAddr` and `VersionPayload` mirror the dataclasses; functions mirror
`create_message`, `parse_message`, `create_version_message`,
`parse_version_payload`, `parse_addr_payload` and `read_varint`. -/

/-- `NetAddr` dataclass (`protocol.py:25`). -/
structure NetAddrT where
  services : Nat
  ip : List Char
  port : Nat
  timestamp : Option Nat := none
deriving DecidableEq

/-- `VersionPayload` dataclass (`protocol.py:34`). -/
structure VersionPayloadT where
  version : Nat
  services : Nat
  timestamp : Int
  addr_recv : NetAddrT
  addr_from : NetAddrT
  nonce : Nat
  user_agent : List Char
  start_height : Nat
  relay : Bool
deriving DecidableEq

/-- The slice of the `ChainConfig` dataclass (`config.py:19`) that the
protocol functions consume. -/
structure ChainConfigT where
  name : List Char
  protocol_version : Nat
  magic_bytes : List Nat

/-- `SERVICES_NODE_NETWORK` (`protocol.py:19`). -/
def SERVICES_NODE_NETWORK : Nat := 1

/-- `bytes.ljust(12, b"\x00")`. -/
def ljust12 (l : List Nat) : List Nat := l ++ List.replicate (12 - l.length) 0

/-- `bytes.rstrip(b"\x00")`. -/
def rstripZero (l : List Nat) : List Nat := (l.reverse.dropWhile (· == 0)).reverse

/-- The failure cases of `parse_message` (the `ValueError`s it raises, plus
the `UnicodeDecodeError` a non-ASCII command byte raises out of it). -/
inductive ParseErr where
  | shortHeader
  | badMagic
  | badCommand
  | incompleteMessage
  | badChecksum
deriving DecidableEq

/-- `create_message` (`protocol.py:53`): magic, 12-byte zero-padded command,
4-byte LE payload length, 4-byte checksum, payload.  `none` when
`command.encode("ascii")` or `struct.pack("<I", len(payload))` raises. -/
def create_message (magic : List Nat) (command : List Char) (payload : List Nat) :
    Option (List Nat) :=
  (encodeAscii command).bind fun command_bytes =>
    if payload.length < 2 ^ 32 then
      some (magic ++ ljust12 command_bytes ++ pack32LE payload.length ++
        (double_sha256 payload).take 4 ++ payload)
    else none

/-- `parse_message` (`protocol.py:71`): returns `(command, payload,
remaining_data)` or the raised error. -/
def parse_message (data : List Nat) (magic : List Nat) :
    Except ParseErr (List Char × List Nat × List Nat) :=
  if data.length < 24 then .error .shortHeader
  else if data.take 4 ≠ magic then .error .badMagic
  else
    match decodeAscii (rstripZero ((data.drop 4).take 12)) with
    | none => .error .badCommand
    | some command =>
      let length := unpack32LE ((data.drop 16).take 4)
      let checksum := (data.drop 20).take 4
      if data.length < 24 + length then .error .incompleteMessage
      else
        let payload := (data.drop 24).take length
        if (double_sha256 payload).take 4 ≠ checksum then .error .badChecksum
        else .ok (command, payload, data.drop (24 + length))

/-- The user agent string `f"/{chain_config.name}NodesCrawler:0.1.0/"`. -/
def versionUserAgent (name : List Char) : List Char :=
  '/' :: name ++ "NodesCrawler:0.1.0/".data

/-- The ten-zeros-then-ffff IPv4-mapped IPv6 marker written by the encoder. -/
def v4MappedMarker : List Nat := [0, 0, 0, 0, 0, 0, 0, 0, 0, 0, 0xFF, 0xFF]

/-- The `addr_recv` IP field written by `create_version_message`: the native
16 IPv6 bytes when the receiver IP contains a colon, else the IPv4-mapped
form (`protocol.py:133`–`140`). -/
def recvIpField (recv_ip : List Char) : Option (List Nat) :=
  if ':' ∈ recv_ip then inet_pton6 recv_ip
  else (inet_pton4 recv_ip).map (v4MappedMarker ++ ·)

/-- The payload built by `create_version_message` (`protocol.py:119`–`161`).
`timestamp` stands for `int(time.time())` and `nonce` for
`random.getrandbits(64)`; `none` when `struct.pack` or `socket.inet_pton`
raises. -/
def create_version_payload (cfg : ChainConfigT) (recv_ip : List Char)
    (recv_port start_height : Nat) (timestamp : Int) (nonce : Nat) :
    Option (List Nat) :=
  if cfg.protocol_version < 2 ^ 32 ∧ -(2 ^ 63) ≤ timestamp ∧ timestamp < 2 ^ 63 ∧
      recv_port < 2 ^ 16 ∧ nonce < 2 ^ 64 ∧
      (utf8Encode (versionUserAgent cfg.name)).length < 256 ∧
      start_height < 2 ^ 32 then
    (recvIpField recv_ip).map fun recv_ip_field =>
      pack32LE cfg.protocol_version ++
      pack64LE SERVICES_NODE_NETWORK ++
      pack64sLE timestamp ++
      pack64LE SERVICES_NODE_NETWORK ++ recv_ip_field ++ pack16BE recv_port ++
      pack64LE SERVICES_NODE_NETWORK ++ (v4MappedMarker ++ [0, 0, 0, 0]) ++ pack16BE 0 ++
      pack64LE nonce ++
      (utf8Encode (versionUserAgent cfg.name)).length ::
        utf8Encode (versionUserAgent cfg.name) ++
      pack32LE start_height ++
      [1]
  else none

/-- `create_version_message` (`protocol.py:101`): the version payload wrapped
by `create_message` with command `"version"`. -/
def create_version_message (cfg : ChainConfigT) (recv_ip : List Char)
    (recv_port start_height : Nat) (timestamp : Int) (nonce : Nat) :
    Option (List Nat) :=
  (create_version_payload cfg recv_ip recv_port start_height timestamp nonce).bind
    fun payload => create_message cfg.magic_bytes "version".data payload

/-- `payload[off:off+n]` when `struct.unpack`/`inet_ntoa` demands exactly `n`
bytes (raising on fewer). -/
def readBytes (p : List Nat) (off n : Nat) : Option (List Nat) :=
  if off + n ≤ p.length then some ((p.drop off).take n) else none

def readU16BE (p : List Nat) (off : Nat) : Option Nat :=
  (readBytes p off 2).map unpack16BE

def readU16LEat (p : List Nat) (off : Nat) : Option Nat :=
  (readBytes p off 2).map unpack16LE

def readU32LEat (p : List Nat) (off : Nat) : Option Nat :=
  (readBytes p off 4).map unpack32LE

def readU64LEat (p : List Nat) (off : Nat) : Option Nat :=
  (readBytes p off 8).map unpack64LE

def readI64LEat (p : List Nat) (off : Nat) : Option Int :=
  (readBytes p off 8).map unpack64sLE

/-- `parse_version_payload` (`protocol.py:176`): sequential reads at fixed
offsets; the user-agent length is the single byte at offset 80, the
user-agent slice is truncating, and the relay byte is optional. -/
def parse_version_payload (p : List Nat) : Option VersionPayloadT :=
  (readU32LEat p 0).bind fun version =>
  (readU64LEat p 4).bind fun services =>
  (readI64LEat p 12).bind fun timestamp =>
  (readU64LEat p 20).bind fun recv_services =>
  (readBytes p 40 4).bind fun recv_ip_bytes =>
  (readU16BE p 44).bind fun recv_port =>
  (readU64LEat p 46).bind fun from_services =>
  (readBytes p 66 4).bind fun from_ip_bytes =>
  (readU16BE p 70).bind fun from_port =>
  (readU64LEat p 72).bind fun nonce =>
  (p[80]?).bind fun user_agent_len =>
  (readU32LEat p (81 + user_agent_len)).map fun start_height =>
  { version := version
    services := services
    timestamp := timestamp
    addr_recv := ⟨recv_services, inet_ntoa recv_ip_bytes, recv_port, none⟩
    addr_from := ⟨from_services, inet_ntoa from_ip_bytes, from_port, none⟩
    nonce := nonce
    user_agent := utf8DecodeReplace ((p.drop 81).take user_agent_len)
    start_height := start_height
    relay := if 85 + user_agent_len < p.length then p.getD (85 + user_agent_len) 0 != 0
             else true }

/-- `read_varint` (`protocol.py:284`). -/
def read_varint (data : List Nat) (offset : Nat) : Option (Nat × Nat) :=
  (data[offset]?).bind fun first_byte =>
    if first_byte < 0xFD then some (first_byte, offset + 1)
    else if first_byte = 0xFD then
      (readBytes data (offset + 1) 2).map fun bs => (unpack16LE bs, offset + 3)
    else if first_byte = 0xFE then
      (readBytes data (offset + 1) 4).map fun bs => (unpack32LE bs, offset + 5)
    else
      (readBytes data (offset + 1) 8).map fun bs => (unpack64LE bs, offset + 9)

/-- The `NetAddr` decoded from the 30 bytes at `offset` by the body of the
`parse_addr_payload` loop. -/
def decodeAddrAt (p : List Nat) (offset : Nat) : NetAddrT :=
  let ip_bytes := (p.drop (offset + 12)).take 16
  { timestamp := some (unpack32LE ((p.drop offset).take 4))
    services := unpack64LE ((p.drop (offset + 4)).take 8)
    ip := if ip_bytes.take 12 = v4MappedMarker then inet_ntoa (ip_bytes.drop 12)
          else inet_ntop6 ip_bytes
    port := unpack16BE ((p.drop (offset + 28)).take 2) }

/-- The `for _ in range(count)` loop of `parse_addr_payload`, stopping when
fewer than 30 bytes remain. -/
def addrLoop (p : List Nat) : Nat → Nat → List NetAddrT → List NetAddrT
  | 0, _, acc => acc.reverse
  | n + 1, offset, acc =>
    if p.length < offset + 30 then acc.reverse
    else addrLoop p n (offset + 30) (decodeAddrAt p offset :: acc)

/-- `parse_addr_payload` (`protocol.py:244`); `none` exactly when the leading
varint read raises. -/
def parse_addr_payload (p : List Nat) : Option (List NetAddrT) :=
  (read_varint p 0).map fun co => addrLoop p co.1 co.2 []

/-! ## Configuration loading (`config.py`)

The embedding covers the crawler-settings slice of `load_config`
(`config.py:227`–`326`): the numeric options resolved from environment
variables over YAML over defaults, and the validation block.  The YAML
`crawlerConfig` mapping and the environment are modelled as typed records of
optional values (`int(...)`/`float(...)` of the raw strings having
succeeded); Python `float` values arising here are exact decimals, modelled
as `ℚ`.  The `maxRetries > 10` branch only prints a warning.  The chain,
Supabase, RPC, GeoIP-path and alert fields do not interact with these
options and are out of scope of the embedding. -/

/-- The `crawlerConfig` mapping of `project.config.yaml` as
`load_crawler_config_from_yaml` returns it (`none` = key absent). -/
structure CrawlerYaml where
  pruneAfterHours : Option Int := none
  scanIntervalMinutes : Option Int := none
  maxConcurrentConnections : Option Int := none
  connectionTimeoutSeconds : Option Int := none
  extendedTimeoutSeconds : Option Int := none
  maxRetries : Option Int := none
  initialRetryDelaySeconds : Option ℚ := none
  retryBackoffMultiplier : Option ℚ := none
  fallbackProtocolVersions : Option (List Int) := none
  requireVersionForSave : Option Bool := none
  getaddr_delay_ms : Option Int := none
deriving DecidableEq

/-- The environment variables `load_config` reads for these options
(`none` = unset). -/
structure CrawlerEnv where
  prune_after_hours : Option Int := none
  crawler_interval_minutes : Option Int := none
  max_concurrent_connections : Option Int := none
  connection_timeout_seconds : Option Int := none
  extended_timeout_seconds : Option Int := none
  max_retries : Option Int := none
  initial_retry_delay_seconds : Option ℚ := none
  retry_backoff_multiplier : Option ℚ := none
  getaddr_delay_ms : Option Int := none
deriving DecidableEq

/-- The crawler-settings fields of the returned `CrawlerConfig`. -/
structure CrawlerSettings where
  interval_minutes : Int
  max_concurrent : Int
  connection_timeout : Int
  extended_timeout : Int
  getaddr_delay_ms : Int
  prune_after_hours : Int
  max_retries : Int
  initial_retry_delay : ℚ
  retry_backoff_multiplier : ℚ
  fallback_protocol_versions : List Int
  require_version_for_save : Bool
deriving DecidableEq

/-- The crawler-settings slice of `load_config` (`config.py:227`–`326`):
resolution of each option and the validation block, in source order; the
raised `ValueError`s are the `.error` cases. -/
def load_config_crawler (env : CrawlerEnv) (yaml : CrawlerYaml) :
    Except String CrawlerSettings :=
  let prune_after_hours := env.prune_after_hours.getD (yaml.pruneAfterHours.getD 168)
  let interval_minutes := env.crawler_interval_minutes.getD (yaml.scanIntervalMinutes.getD 5)
  let max_concurrent :=
    env.max_concurrent_connections.getD (yaml.maxConcurrentConnections.getD 100)
  let connection_timeout :=
    env.connection_timeout_seconds.getD (yaml.connectionTimeoutSeconds.getD 10)
  let extended_timeout :=
    env.extended_timeout_seconds.getD (yaml.extendedTimeoutSeconds.getD 30)
  let max_retries := env.max_retries.getD (yaml.maxRetries.getD 3)
  let initial_retry_delay :=
    env.initial_retry_delay_seconds.getD (yaml.initialRetryDelaySeconds.getD 1)
  let retry_backoff_multiplier :=
    env.retry_backoff_multiplier.getD (yaml.retryBackoffMultiplier.getD 2)
  let fallback_protocol_versions := yaml.fallbackProtocolVersions.getD []
  let require_version_for_save := yaml.requireVersionForSave.getD true
  if max_retries < 0 then .error "maxRetries must be >= 0"
  else if connection_timeout ≤ 0 then .error "connectionTimeoutSeconds must be > 0"
  else if extended_timeout < connection_timeout then
    .error "extendedTimeoutSeconds must be >= connectionTimeoutSeconds"
  else if initial_retry_delay ≤ 0 then .error "initialRetryDelaySeconds must be > 0"
  else if retry_backoff_multiplier < 1 then .error "retryBackoffMultiplier must be >= 1"
  else .ok
    { interval_minutes := interval_minutes
      max_concurrent := max_concurrent
      connection_timeout := connection_timeout
      extended_timeout := extended_timeout
      getaddr_delay_ms := env.getaddr_delay_ms.getD 100
      prune_after_hours := prune_after_hours
      max_retries := max_retries
      initial_retry_delay := initial_retry_delay
      retry_backoff_multiplier := retry_backoff_multiplier
      fallback_protocol_versions := fallback_protocol_versions
      require_version_for_save := require_version_for_save }

/-! ## GeoIP cache (`geoip.py`)

`GeoIPLookup.lookup` caches result dicts keyed by the IP string; the value
type is a parameter `α` standing for the result dict (its contents never
influence the cache discipline).  The `fresh` argument of `geoLookup` models
the dict computed from the MaxMind readers on a cache miss (the all-`None`
dict when no reader is loaded). -/

/-- The mutable state of a `GeoIPLookup` instance: whether `self.reader` is
set, and `self._cache` as an insertion-ordered association list (Python
dicts preserve insertion order). -/
structure GeoState (α : Type) where
  hasReader : Bool
  cache : List (List Char × α)

/-- `ip in self._cache` / `self._cache[ip]`. -/
def lookupCache (cache : List (List Char × α)) (ip : List Char) : Option α :=
  (cache.find? fun e => e.1 == ip).map Prod.snd

/-- One call to `GeoIPLookup.lookup` (`geoip.py:51`–`135`): cache hit returns
the cached dict; a miss with no reader returns without caching; otherwise the
result is appended and, when the cache exceeds 10,000 entries, the first
5,000 keys (the earliest inserted) are deleted. -/
def geoLookup (s : GeoState α) (ip : List Char) (fresh : α) : α × GeoState α :=
  match lookupCache s.cache ip with
  | some v => (v, s)
  | none =>
    if !s.hasReader then (fresh, s)
    else
      let cache1 := s.cache ++ [(ip, fresh)]
      if 10000 < cache1.length then (fresh, ⟨s.hasReader, cache1.drop 5000⟩)
      else (fresh, ⟨s.hasReader, cache1⟩)

/-- States reachable from a freshly constructed `GeoIPLookup` (empty cache)
by any sequence of `lookup` calls. -/
inductive GeoReachable {α : Type} : GeoState α → Prop
  | init : ∀ b, GeoReachable ⟨b, []⟩
  | step : ∀ {s : GeoState α} (ip : List Char) (fresh : α),
      GeoReachable s → GeoReachable (geoLookup s ip fresh).2

/-- A concrete 10,000-entry cache exercising the eviction path: entry `n`
is keyed by the four decimal digits of `n`, so no key equals `"x"`. -/
def geoBigCache : List (List Char × Nat) :=
  (List.range 10000).map fun n =>
    ([Char.ofNat (48 + n / 1000), Char.ofNat (48 + n / 100 % 10),
      Char.ofNat (48 + n / 10 % 10), Char.ofNat (48 + n % 10)], 0)

/-! ## Addr payload claims -/

/-- The claim-side reading of one 30-byte addr entry: 4-byte little-endian
timestamp, 8-byte little-endian services, 16-byte IP field rendered as
dotted-quad when IPv4-mapped and as IPv6 text otherwise, and big-endian port
in the final two bytes. -/
def decodeAddrEntry (e : List Nat) : NetAddrT :=
  { timestamp := some (unpack32LE (e.take 4))
    services := unpack64LE ((e.drop 4).take 8)
    ip := if ((e.drop 12).take 16).take 12 = v4MappedMarker
          then inet_ntoa (((e.drop 12).take 16).drop 12)
          else inet_ntop6 ((e.drop 12).take 16)
    port := unpack16BE ((e.drop 28).take 2) }

theorem addrLoop_spec (p : List Nat) (entries : List (List Nat)) (rest : List Nat)
    (offset : Nat) (acc : List NetAddrT) (hlen : ∀ e ∈ entries, e.length = 30)
    (hdrop : p.drop offset = entries.flatten ++ rest) :
    addrLoop p entries.length offset acc =
      acc.reverse ++ entries.map decodeAddrEntry := by
  induction entries generalizing offset acc with
  | nil => simp [addrLoop]
  | cons e es ih =>
    have he : e.length = 30 := hlen e (by simp)
    rw [List.flatten_cons, List.append_assoc] at hdrop
    have hk : ∀ k : Nat, k ≤ 30 →
        p.drop (offset + k) = e.drop k ++ (es.flatten ++ rest) := by
      intro k hk30
      have h2 := congrArg (List.drop k) hdrop
      rw [List.drop_drop, List.drop_append_eq_append_drop, he,
        Nat.sub_eq_zero_of_le hk30] at h2
      simpa using h2
    have hlenp : (p.drop offset).length = 30 + (es.flatten ++ rest).length := by
      rw [hdrop]
      simp [he]
    rw [List.length_drop] at hlenp
    show addrLoop p (es.length + 1) offset acc = _
    unfold addrLoop
    rw [if_neg (by omega)]
    have hbody : decodeAddrAt p offset = decodeAddrEntry e := by
      unfold decodeAddrAt decodeAddrEntry
      have h0 : p.drop offset = e ++ (es.flatten ++ rest) := by
        have := hk 0 (by omega)
        simpa using this
      have h4 := hk 4 (by omega)
      have h12 := hk 12 (by omega)
      have h28 := hk 28 (by omega)
      rw [h0, h4, h12, h28,
        take_app_of_le _ _ 4 (by omega),
        take_app_of_le _ _ 8 (by rw [List.length_drop]; omega),
        take_app_of_le _ _ 16 (by rw [List.length_drop]; omega),
        take_app_of_le _ _ 2 (by rw [List.length_drop]; omega)]
    rw [hbody]
    have hdrop30 : p.drop (offset + 30) = es.flatten ++ rest := by
      have h30 := hk 30 (by omega)
      rwa [show List.drop 30 e = [] from List.drop_eq_nil_of_le (by omega),
        List.nil_append] at h30
    rw [ih (offset + 30) (decodeAddrEntry e :: acc)
      (fun e' he' => hlen e' (List.mem_cons_of_mem _ he')) hdrop30]
    simp

/-- C8: every well-formed 30-byte entry of an addr payload is decoded to a
`NetAddr` with the 4-byte little-endian timestamp prefix, the following
8 bytes as little-endian services, the final 2 bytes as big-endian port,
and the ip as IPv4 dotted-quad of the last 4 IP bytes when the 16-byte IP
field carries the IPv4-mapped marker, IPv6 text otherwise. -/
theorem C8_addr_entries (entries : List (List Nat)) (rest : List Nat)
    (hlen : ∀ e ∈ entries, e.length = 30) (hcount : entries.length < 0xFD) :
    parse_addr_payload (entries.length :: (entries.flatten ++ rest)) =
      some (entries.map decodeAddrEntry) := by
  unfold parse_addr_payload read_varint
  rw [show ((entries.length :: (entries.flatten ++ rest)) : List Nat)[0]? =
    some entries.length from by simp]
  simp only [Option.some_bind]
  rw [if_pos hcount]
  simp only [Option.map_some']
  rw [addrLoop_spec _ entries rest 1 [] hlen (by simp)]
  simp

theorem C8_addr_entries_witness :
    ((∀ e ∈ [[1, 0, 0, 0, 9, 0, 0, 0, 0, 0, 0, 0,
        0, 0, 0, 0, 0, 0, 0, 0, 0, 0, 0xFF, 0xFF, 1, 2, 3, 4, 0x20, 0x8D]],
      e.length = 30) ∧
      ([[1, 0, 0, 0, 9, 0, 0, 0, 0, 0, 0, 0,
        0, 0, 0, 0, 0, 0, 0, 0, 0, 0, 0xFF, 0xFF, 1, 2, 3, 4,
        0x20, 0x8D]] : List (List Nat)).length < 0xFD) ∧
    parse_addr_payload
      (([[1, 0, 0, 0, 9, 0, 0, 0, 0, 0, 0, 0,
        0, 0, 0, 0, 0, 0, 0, 0, 0, 0, 0xFF, 0xFF, 1, 2, 3, 4,
        0x20, 0x8D]] : List (List Nat)).length ::
        (([[1, 0, 0, 0, 9, 0, 0, 0, 0, 0, 0, 0,
        0, 0, 0, 0, 0, 0, 0, 0, 0, 0, 0xFF, 0xFF, 1, 2, 3, 4,
        0x20, 0x8D]] : List (List Nat)).flatten ++ [])) =
      some ([[1, 0, 0, 0, 9, 0, 0, 0, 0, 0, 0, 0,
        0, 0, 0, 0, 0, 0, 0, 0, 0, 0, 0xFF, 0xFF, 1, 2, 3, 4,
        0x20, 0x8D]].map decodeAddrEntry) :=
  ⟨⟨by decide, by decide⟩,
    C8_addr_entries [[1, 0, 0, 0, 9, 0, 0, 0, 0, 0, 0, 0,
      0, 0, 0, 0, 0, 0, 0, 0, 0, 0, 0xFF, 0xFF, 1, 2, 3, 4, 0x20, 0x8D]] []
      (by decide) (by decide)⟩

theorem addrLoop_length (p : List Nat) (n : Nat) :
    ∀ (offset : Nat) (acc : List NetAddrT),
    (addrLoop p n offset acc).length =
      acc.length + min n ((p.length - offset) / 30) := by
  induction n with
  | zero => intro offset acc; simp [addrLoop]
  | succ k ih =>
    intro offset acc
    unfold addrLoop
    by_cases hg : p.length < offset + 30
    · rw [if_pos hg]
      have hz : (p.length - offset) / 30 = 0 := by omega
      simp [hz]
    · rw [if_neg hg]
      rw [ih (offset + 30) (decodeAddrAt p offset :: acc)]
      simp only [List.length_cons]
      omega

/-- C10: whenever the leading varint of an addr payload is readable,
`parse_addr_payload` returns (without raising) a list of
`min count ⌊(remaining bytes)/30⌋` entries: at most `count`, stopping
silently at the first position with fewer than 30 bytes left, dropping any
truncated trailing entry. -/
theorem C10_addr_truncation (p : List Nat) (c off : Nat)
    (h : read_varint p 0 = some (c, off)) :
    (parse_addr_payload p).map List.length =
      some (min c ((p.length - off) / 30)) := by
  unfold parse_addr_payload
  rw [h, Option.map_some', Option.map_some', addrLoop_length]
  simp

theorem C10_addr_truncation_witness :
    read_varint (2 :: List.replicate 36 0) 0 = some (2, 1) ∧
    (parse_addr_payload (2 :: List.replicate 36 0)).map List.length =
      some (min 2 (((2 :: List.replicate 36 0 : List Nat).length - 1) / 30)) :=
  ⟨by decide, C10_addr_truncation (2 :: List.replicate 36 0) 2 1 (by decide)⟩

/-! ## GeoIP cache claims -/

/-- C9: after every `lookup` call from a freshly constructed `GeoIPLookup`
the cache holds at most 10,000 entries; and whenever an insertion pushes the
cache past 10,000 entries, the call keeps exactly the last 5,001 entries —
evicting the 5,000 earliest-inserted ones — before returning. -/
theorem C9_geoip_cache :
    (∀ (α : Type) (s : GeoState α), GeoReachable s → s.cache.length ≤ 10000) ∧
    (∀ (α : Type) (s : GeoState α) (ip : List Char) (fresh : α),
      s.hasReader = true → lookupCache s.cache ip = none →
      10000 ≤ s.cache.length →
      ((geoLookup s ip fresh).2).cache = (s.cache ++ [(ip, fresh)]).drop 5000) := by
  constructor
  · intro α s h
    induction h with
    | init b => simp
    | step ip fresh hr ih =>
      unfold geoLookup
      split
      · exact ih
      · split
        · exact ih
        · dsimp only
          split
          · next hgt =>
            simp only [List.length_drop, List.length_append, List.length_cons,
              List.length_nil]
            omega
          · next hle =>
            simp only [List.length_append, List.length_cons, List.length_nil] at *
            omega
  · intro α s ip fresh hr hmiss hfull
    unfold geoLookup
    rw [hmiss, hr]
    dsimp only
    rw [if_neg (by decide)]
    rw [if_pos (by simp only [List.length_append, List.length_cons,
      List.length_nil]; omega)]

theorem C9_geoip_cache_witness :
    (GeoReachable (⟨true, []⟩ : GeoState Nat) ∧
      ((⟨true, []⟩ : GeoState Nat)).cache.length ≤ 10000) ∧
    ((⟨true, geoBigCache⟩ : GeoState Nat).hasReader = true ∧
      lookupCache ((⟨true, geoBigCache⟩ : GeoState Nat)).cache ['x'] = none ∧
      10000 ≤ ((⟨true, geoBigCache⟩ : GeoState Nat)).cache.length ∧
      ((geoLookup (⟨true, geoBigCache⟩ : GeoState Nat) ['x'] 7).2).cache =
        (((⟨true, geoBigCache⟩ : GeoState Nat)).cache ++ [(['x'], 7)]).drop 5000) := by
  have hmiss : lookupCache ((⟨true, geoBigCache⟩ : GeoState Nat)).cache ['x'] =
      none := by
    dsimp only
    unfold lookupCache geoBigCache
    rw [List.find?_eq_none.mpr]
    · rfl
    · intro x hx
      obtain ⟨n, -, rfl⟩ := List.mem_map.mp hx
      simp
  have hfull : 10000 ≤ ((⟨true, geoBigCache⟩ : GeoState Nat)).cache.length := by
    dsimp only
    unfold geoBigCache
    rw [List.length_map, List.length_range]
  exact ⟨⟨GeoReachable.init true, by simp⟩, rfl, hmiss, hfull,
    C9_geoip_cache.2 Nat (⟨true, geoBigCache⟩ : GeoState Nat) ['x'] 7 rfl hmiss hfull⟩

/-! ## Configuration claims -/

/-- C6, amended: `load_config` resolves eight of the options with precedence
environment over YAML over default (`pruneAfterHours` 168,
`scanIntervalMinutes` 5, `maxConcurrentConnections` 100,
`connectionTimeoutSeconds` 10, `extendedTimeoutSeconds` 30, `maxRetries` 3,
`initialRetryDelaySeconds` 1, `retryBackoffMultiplier` 2); but
`fallbackProtocolVersions` (default `[]`) and `requireVersionForSave`
(default true) come from YAML else default with no environment override, and
`getaddr_delay_ms` comes from `GETADDR_DELAY_MS` else default 100, ignoring
any YAML value. -/
theorem C6_config_precedence (env : CrawlerEnv) (yaml : CrawlerYaml)
    (s : CrawlerSettings) (h : load_config_crawler env yaml = .ok s) :
    s.prune_after_hours = env.prune_after_hours.getD (yaml.pruneAfterHours.getD 168) ∧
    s.interval_minutes =
      env.crawler_interval_minutes.getD (yaml.scanIntervalMinutes.getD 5) ∧
    s.max_concurrent =
      env.max_concurrent_connections.getD (yaml.maxConcurrentConnections.getD 100) ∧
    s.connection_timeout =
      env.connection_timeout_seconds.getD (yaml.connectionTimeoutSeconds.getD 10) ∧
    s.extended_timeout =
      env.extended_timeout_seconds.getD (yaml.extendedTimeoutSeconds.getD 30) ∧
    s.max_retries = env.max_retries.getD (yaml.maxRetries.getD 3) ∧
    s.initial_retry_delay =
      env.initial_retry_delay_seconds.getD (yaml.initialRetryDelaySeconds.getD 1) ∧
    s.retry_backoff_multiplier =
      env.retry_backoff_multiplier.getD (yaml.retryBackoffMultiplier.getD 2) ∧
    s.fallback_protocol_versions = yaml.fallbackProtocolVersions.getD [] ∧
    s.require_version_for_save = yaml.requireVersionForSave.getD true ∧
    s.getaddr_delay_ms = env.getaddr_delay_ms.getD 100 := by
  unfold load_config_crawler at h
  dsimp only at h
  split at h
  · simp at h
  split at h
  · simp at h
  split at h
  · simp at h
  split at h
  · simp at h
  split at h
  · simp at h
  obtain rfl : _ = s := Except.ok.inj h
  exact ⟨rfl, rfl, rfl, rfl, rfl, rfl, rfl, rfl, rfl, rfl, rfl⟩

theorem C6_config_precedence_witness :
    load_config_crawler {} { scanIntervalMinutes := some 9 } =
      .ok { interval_minutes := 9, max_concurrent := 100,
            connection_timeout := 10, extended_timeout := 30,
            getaddr_delay_ms := 100, prune_after_hours := 168,
            max_retries := 3, initial_retry_delay := 1,
            retry_backoff_multiplier := 2, fallback_protocol_versions := [],
            require_version_for_save := true } ∧
    ({ interval_minutes := 9, max_concurrent := 100,
       connection_timeout := 10, extended_timeout := 30,
       getaddr_delay_ms := 100, prune_after_hours := 168,
       max_retries := 3, initial_retry_delay := 1,
       retry_backoff_multiplier := 2, fallback_protocol_versions := [],
       require_version_for_save := true } : CrawlerSettings).interval_minutes =
      ({} : CrawlerEnv).crawler_interval_minutes.getD
        (({ scanIntervalMinutes := some 9 } : CrawlerYaml).scanIntervalMinutes.getD 5) :=
  ⟨by decide,
    (C6_config_precedence {} { scanIntervalMinutes := some 9 } _ (by decide)).2.1⟩

/-- C6, counterexample: with `GETADDR_DELAY_MS` unset and the YAML
`crawlerConfig` carrying `getaddr_delay_ms: 7`, `load_config` returns 100 —
the YAML value is never consulted for this option, so env > file > defaults
does not hold for every recognized option. -/
theorem C6_counterexample :
    (load_config_crawler {} { getaddr_delay_ms := some 7 }).map
      (fun s => s.getaddr_delay_ms) = .ok 100 ∧
    ({ getaddr_delay_ms := some 7 } : CrawlerYaml).getaddr_delay_ms = some 7 ∧
    ({} : CrawlerEnv).getaddr_delay_ms = none ∧ (100 : Int) ≠ 7 := by
  refine ⟨by decide, by decide, by decide, by decide⟩

/-- C7, amended: `load_config` raises for a resolved `maxRetries` below 0 and
for a resolved `retryBackoffMultiplier` below 1, and does not raise when the
validated options are in range — but a `maxRetries` above 10 only prints a
warning and does not raise, so the documented 0–10 upper bound is not
enforced. -/
theorem C7_validation (env : CrawlerEnv) (yaml : CrawlerYaml) :
    (env.max_retries.getD (yaml.maxRetries.getD 3) < 0 →
      (load_config_crawler env yaml).isOk = false) ∧
    (env.retry_backoff_multiplier.getD (yaml.retryBackoffMultiplier.getD 2) < 1 →
      (load_config_crawler env yaml).isOk = false) ∧
    (0 ≤ env.max_retries.getD (yaml.maxRetries.getD 3) →
      1 ≤ env.retry_backoff_multiplier.getD (yaml.retryBackoffMultiplier.getD 2) →
      0 < env.connection_timeout_seconds.getD (yaml.connectionTimeoutSeconds.getD 10) →
      env.connection_timeout_seconds.getD (yaml.connectionTimeoutSeconds.getD 10) ≤
        env.extended_timeout_seconds.getD (yaml.extendedTimeoutSeconds.getD 30) →
      0 < env.initial_retry_delay_seconds.getD (yaml.initialRetryDelaySeconds.getD 1) →
      (load_config_crawler env yaml).isOk = true) := by
  refine ⟨?_, ?_, ?_⟩
  · intro hm
    unfold load_config_crawler
    dsimp only
    rw [if_pos hm]
    rfl
  · intro hm
    unfold load_config_crawler
    dsimp only
    repeat' split
    all_goals rfl
  · intro h1 h2 h3 h4 h5
    unfold load_config_crawler
    dsimp only
    rw [if_neg (not_lt.mpr h1), if_neg (not_le.mpr h3), if_neg (not_lt.mpr h4),
      if_neg (not_le.mpr h5), if_neg (not_lt.mpr h2)]
    rfl

theorem C7_validation_witness :
    (({ max_retries := some (-1) } : CrawlerEnv).max_retries.getD
        (({} : CrawlerYaml).maxRetries.getD 3) < 0 ∧
      (load_config_crawler { max_retries := some (-1) } {}).isOk = false) ∧
    (({ retry_backoff_multiplier := some 0 } : CrawlerEnv).retry_backoff_multiplier.getD
        (({} : CrawlerYaml).retryBackoffMultiplier.getD 2) < 1 ∧
      (load_config_crawler { retry_backoff_multiplier := some 0 } {}).isOk = false) ∧
    (load_config_crawler {} {}).isOk = true :=
  ⟨⟨by decide, (C7_validation { max_retries := some (-1) } {}).1 (by decide)⟩,
    ⟨by decide, (C7_validation { retry_backoff_multiplier := some 0 } {}).2.1 (by decide)⟩,
    (C7_validation {} {}).2.2 (by decide) (by decide) (by decide) (by decide) (by decide)⟩

/-- C7, counterexample: a resolved `maxRetries` of 11 lies outside the
documented 0–10 range, yet `load_config` succeeds (line 267 only prints a
warning), contradicting the claim that out-of-range values raise at
startup. -/
theorem C7_counterexample :
    (load_config_crawler { max_retries := some 11 } {}).isOk = true ∧
    ¬((11 : Int) ≤ 10) := by
  refine ⟨by decide, by decide⟩

/-! ## Frame codec round-trip -/

/-- Trailing-NUL stripping at the string level: what `rstrip(b"\x00")` does
to the command after the ASCII round trip. -/
def stripNulChars (s : List Char) : List Char :=
  (s.reverse.dropWhile (· == '\x00')).reverse

theorem rstripZero_ljust12 (l : List Nat) : rstripZero (ljust12 l) = rstripZero l := by
  unfold rstripZero ljust12
  rw [List.reverse_append, List.reverse_replicate, List.dropWhile_append]
  rw [if_pos (by simp)]

theorem rstripZero_map_toNat (cmd : List Char) :
    rstripZero (cmd.map (fun c => c.toNat)) = (stripNulChars cmd).map (fun c => c.toNat) := by
  have hfun : ((fun b : Nat => b == 0) ∘ fun c : Char => c.toNat) =
      (fun c : Char => c == '\x00') := by
    funext c
    by_cases hc : c = '\x00'
    · subst hc; rfl
    · have hne : c.toNat ≠ 0 := fun h => hc (by rw [← Char.ofNat_toNat c, h])
      simp [hc, hne]
  unfold rstripZero stripNulChars
  rw [← List.map_reverse, List.dropWhile_map, hfun, ← List.map_reverse]

theorem decodeAscii_map_toNat (s : List Char) (h : ∀ c ∈ s, c.toNat < 128) :
    decodeAscii (s.map (fun c => c.toNat)) = some s := by
  unfold decodeAscii
  rw [if_pos (by simpa [List.all_eq_true] using h)]
  simp [List.map_map, Function.comp_def, Char.ofNat_toNat]

theorem mem_stripNulChars (s : List Char) (c : Char) (h : c ∈ stripNulChars s) :
    c ∈ s := by
  unfold stripNulChars at h
  rw [List.mem_reverse] at h
  have := (List.dropWhile_sublist (l := s.reverse) (p := (· == '\x00'))).mem h
  rwa [List.mem_reverse] at this

theorem stripNulChars_eq_self (s : List Char) (h : s.getLast? ≠ some '\x00') :
    stripNulChars s = s := by
  unfold stripNulChars
  cases hr : s.reverse with
  | nil => simp [List.reverse_eq_nil_iff.mp hr]
  | cons c t =>
    have hc : c ≠ '\x00' := by
      intro hc
      apply h
      rw [← List.head?_reverse, hr, hc]
      rfl
    rw [List.dropWhile_cons, if_neg (by simp [hc])]
    rw [← hr, List.reverse_reverse]

/-- Parsing a framed message (with the building magic) recovers the
NUL-stripped command, the exact payload, and the trailing bytes. -/
theorem parse_message_create_message (magic : List Nat) (cmd : List Char)
    (payload rest : List Nat) (hm : magic.length = 4)
    (hcmd : ∀ c ∈ cmd, c.toNat < 128) (hcl : cmd.length ≤ 12)
    (hp : payload.length < 2 ^ 32) :
    (create_message magic cmd payload).map
      (fun msg => parse_message (msg ++ rest) magic) =
    some (.ok (stripNulChars cmd, payload, rest)) := by
  unfold create_message
  rw [show encodeAscii cmd = some (cmd.map (fun c => c.toNat)) from by
    unfold encodeAscii; rw [if_pos (by simpa [List.all_eq_true] using hcmd)]]
  simp only [Option.some_bind]
  rw [if_pos hp]
  simp only [Option.map_some']
  refine congrArg some ?_
  set C := ljust12 (cmd.map fun c => c.toNat) with hC
  set L := pack32LE payload.length with hL
  set K := (double_sha256 payload).take 4 with hK
  have hCl : C.length = 12 := by
    simp only [hC, ljust12, List.length_append, List.length_replicate, List.length_map]
    omega
  have hLl : L.length = 4 := length_pack32LE _
  have hKl : K.length = 4 := by
    rw [hK, List.length_take, length_double_sha256]
    rfl
  simp only [List.append_assoc]
  set data := magic ++ (C ++ (L ++ (K ++ (payload ++ rest)))) with hdata
  have hdl : data.length = 24 + (payload.length + rest.length) := by
    simp [hdata, List.length_append, hm, hCl, hLl, hKl]
    omega
  have e4 : data.drop 4 = C ++ (L ++ (K ++ (payload ++ rest))) :=
    drop_app _ _ _ hm.symm
  have e16 : data.drop 16 = L ++ (K ++ (payload ++ rest)) := by
    rw [hdata, show (16 : Nat) = 4 + 12 from rfl, drop_app_add _ _ _ _ hm.symm,
      drop_app _ _ _ hCl.symm]
  have e20 : data.drop 20 = K ++ (payload ++ rest) := by
    rw [hdata, show (20 : Nat) = 4 + 16 from rfl, drop_app_add _ _ _ _ hm.symm,
      show (16 : Nat) = 12 + 4 from rfl, drop_app_add _ _ _ _ hCl.symm,
      drop_app _ _ _ hLl.symm]
  have e24 : data.drop 24 = payload ++ rest := by
    rw [hdata, show (24 : Nat) = 4 + 20 from rfl, drop_app_add _ _ _ _ hm.symm,
      show (20 : Nat) = 12 + 8 from rfl, drop_app_add _ _ _ _ hCl.symm,
      show (8 : Nat) = 4 + 4 from rfl, drop_app_add _ _ _ _ hLl.symm,
      drop_app _ _ _ hKl.symm]
  unfold parse_message
  rw [if_neg (by omega)]
  rw [take_app _ _ _ hm.symm, if_neg (by simp)]
  rw [e4, take_app _ _ _ hCl.symm, hC, rstripZero_ljust12, rstripZero_map_toNat,
    decodeAscii_map_toNat _ (fun c hc => hcmd c (mem_stripNulChars _ _ hc))]
  dsimp only
  rw [e16, take_app _ _ _ hLl.symm, hL, unpack32LE_pack32LE _ hp]
  rw [if_neg (by omega)]
  rw [e24, take_app _ _ _ rfl, e20, take_app _ _ _ hKl.symm]
  rw [if_neg (by simp [hK])]
  have e24p : data.drop (24 + payload.length) = rest := by
    rw [hdata, show 24 + payload.length = 4 + (20 + payload.length) from by omega,
      drop_app_add _ _ _ _ hm.symm,
      show 20 + payload.length = 12 + (8 + payload.length) from by omega,
      drop_app_add _ _ _ _ hCl.symm,
      show 8 + payload.length = 4 + (4 + payload.length) from by omega,
      drop_app_add _ _ _ _ hLl.symm,
      show 4 + payload.length = 4 + payload.length from rfl,
      drop_app_add _ _ _ _ hKl.symm,
      drop_app _ _ _ rfl]
  rw [e24p]

/-- C1, amended: for every 4-byte magic, ASCII command of length at most 12
bytes with no trailing NUL byte, payload shorter than `2^32` bytes (so the
length field can represent it), and trailing bytes `rest`, `parse_message`
applied to `create_message(magic, command, payload)` concatenated with
`rest`, with the same magic, returns exactly `(command, payload, rest)`. -/
theorem C1_roundtrip (magic : List Nat) (cmd : List Char) (payload rest : List Nat)
    (hm : magic.length = 4) (hcmd : ∀ c ∈ cmd, c.toNat < 128) (hcl : cmd.length ≤ 12)
    (hlast : cmd.getLast? ≠ some '\x00') (hp : payload.length < 2 ^ 32) :
    (create_message magic cmd payload).map
      (fun msg => parse_message (msg ++ rest) magic) =
    some (.ok (cmd, payload, rest)) := by
  rw [parse_message_create_message magic cmd payload rest hm hcmd hcl hp,
    stripNulChars_eq_self cmd hlast]

theorem C1_roundtrip_witness :
    (([0xf9, 0xbe, 0xb4, 0xd9] : List Nat).length = 4 ∧
      (∀ c ∈ "ping".data, c.toNat < 128) ∧ "ping".data.length ≤ 12 ∧
      "ping".data.getLast? ≠ some '\x00' ∧ ([1, 2] : List Nat).length < 2 ^ 32) ∧
    (create_message [0xf9, 0xbe, 0xb4, 0xd9] "ping".data [1, 2]).map
        (fun msg => parse_message (msg ++ [7]) [0xf9, 0xbe, 0xb4, 0xd9]) =
      some (.ok ("ping".data, [1, 2], [7])) :=
  ⟨⟨by decide, by decide, by decide, by decide, by decide⟩,
    C1_roundtrip [0xf9, 0xbe, 0xb4, 0xd9] "ping".data [1, 2] [7]
      (by decide) (by decide) (by decide) (by decide) (by decide)⟩

/-- C1, counterexample: the ASCII command `"a\x00"` has length 2 ≤ 12, yet
the round trip returns command `"a"` — `rstrip(b"\x00")` in `parse_message`
strips the trailing NUL, so the claim fails as stated for commands with
trailing NUL bytes. -/
theorem C1_counterexample :
    (create_message [0xf9, 0xbe, 0xb4, 0xd9] ['a', '\x00'] []).map
        (fun msg => parse_message (msg ++ []) [0xf9, 0xbe, 0xb4, 0xd9]) ≠
      some (.ok (['a', '\x00'], [], [])) := by
  rw [parse_message_create_message [0xf9, 0xbe, 0xb4, 0xd9] ['a', '\x00'] [] []
    (by decide) (by decide) (by decide) (by decide)]
  decide

/-- C2, amended: `parse_message` has no payload-size cap.  For every buffer
of at least 24 bytes with correct magic and decodable command whose header
declares a payload length greater than 2 MiB while the buffer holds fewer
than the declared bytes, it fails with the same generic `"Incomplete
message"` error used for any short payload — not with a dedicated
oversize-payload error (no such error exists in the code). -/
theorem C2_no_oversize_check (data magic : List Nat)
    (h24 : 24 ≤ data.length) (hmg : data.take 4 = magic)
    (hcmd : (decodeAscii (rstripZero ((data.drop 4).take 12))).isSome)
    (hbig : 2 * 1024 * 1024 < unpack32LE ((data.drop 16).take 4))
    (hshort : data.length < 24 + unpack32LE ((data.drop 16).take 4)) :
    parse_message data magic = .error .incompleteMessage := by
  unfold parse_message
  rw [if_neg (by omega), if_neg (by simp [hmg])]
  cases hdec : decodeAscii (rstripZero ((data.drop 4).take 12)) with
  | none => rw [hdec] at hcmd; exact absurd hcmd (by simp)
  | some command =>
    dsimp only
    rw [if_pos hshort]

theorem C2_no_oversize_check_witness :
    (24 ≤ ([0xf9, 0xbe, 0xb4, 0xd9, 0x76, 0x65, 0x72, 0, 0, 0, 0, 0, 0, 0, 0, 0,
        1, 0, 0x30, 0, 0, 0, 0, 0] : List Nat).length ∧
      ([0xf9, 0xbe, 0xb4, 0xd9, 0x76, 0x65, 0x72, 0, 0, 0, 0, 0, 0, 0, 0, 0,
        1, 0, 0x30, 0, 0, 0, 0, 0] : List Nat).take 4 = [0xf9, 0xbe, 0xb4, 0xd9] ∧
      (decodeAscii (rstripZero ((([0xf9, 0xbe, 0xb4, 0xd9, 0x76, 0x65, 0x72, 0, 0, 0,
        0, 0, 0, 0, 0, 0, 1, 0, 0x30, 0, 0, 0, 0, 0] : List Nat).drop 4).take 12))).isSome ∧
      2 * 1024 * 1024 < unpack32LE ((([0xf9, 0xbe, 0xb4, 0xd9, 0x76, 0x65, 0x72, 0, 0, 0,
        0, 0, 0, 0, 0, 0, 1, 0, 0x30, 0, 0, 0, 0, 0] : List Nat).drop 16).take 4) ∧
      ([0xf9, 0xbe, 0xb4, 0xd9, 0x76, 0x65, 0x72, 0, 0, 0, 0, 0, 0, 0, 0, 0,
        1, 0, 0x30, 0, 0, 0, 0, 0] : List Nat).length <
        24 + unpack32LE ((([0xf9, 0xbe, 0xb4, 0xd9, 0x76, 0x65, 0x72, 0, 0, 0,
        0, 0, 0, 0, 0, 0, 1, 0, 0x30, 0, 0, 0, 0, 0] : List Nat).drop 16).take 4)) ∧
    parse_message [0xf9, 0xbe, 0xb4, 0xd9, 0x76, 0x65, 0x72, 0, 0, 0, 0, 0, 0, 0, 0, 0,
        1, 0, 0x30, 0, 0, 0, 0, 0] [0xf9, 0xbe, 0xb4, 0xd9] = .error .incompleteMessage :=
  ⟨⟨by decide, by decide, by decide, by decide, by decide⟩,
    C2_no_oversize_check _ _ (by decide) (by decide) (by decide) (by decide) (by decide)⟩

/-- C2, counterexample: a 24-byte header with correct magic declaring a
payload of `2 MiB + 1` bytes is rejected with the generic `"Incomplete
message"` error — the same error produced by a header declaring a mere
10-byte payload that is also absent.  There is no dedicated immediate
oversize-payload failure: `ParseErr` enumerates every error `parse_message`
raises, and none corresponds to a size cap. -/
theorem C2_counterexample :
    parse_message [0xf9, 0xbe, 0xb4, 0xd9, 0x76, 0x65, 0x72, 0, 0, 0, 0, 0, 0, 0, 0, 0,
        1, 0, 0x20, 0, 0, 0, 0, 0] [0xf9, 0xbe, 0xb4, 0xd9] = .error .incompleteMessage ∧
    parse_message [0xf9, 0xbe, 0xb4, 0xd9, 0x76, 0x65, 0x72, 0, 0, 0, 0, 0, 0, 0, 0, 0,
        10, 0, 0, 0, 0, 0, 0, 0] [0xf9, 0xbe, 0xb4, 0xd9] = .error .incompleteMessage ∧
    unpack32LE ((([0xf9, 0xbe, 0xb4, 0xd9, 0x76, 0x65, 0x72, 0, 0, 0, 0, 0, 0, 0, 0, 0,
        1, 0, 0x20, 0, 0, 0, 0, 0] : List Nat).drop 16).take 4) = 2 * 1024 * 1024 + 1 := by
  refine ⟨?_, ?_, by decide⟩ <;> decide

/-! ## Version payload wire layout -/

theorem drop_step (p : List α) (k n m : Nat) (A X : List α)
    (h : p.drop k = A ++ X) (hA : A.length = n) (hm : m = k + n) :
    p.drop m = X := by
  subst hm
  rw [← List.drop_drop, h, drop_app _ _ _ hA.symm]

/-- Reading through a drop equation: if the bytes at offset `k` start with
block `A` of length `n > 0`, reading `n` bytes there yields exactly `A`. -/
theorem readBytes_of_drop (p : List Nat) (k n : Nat) (A X : List Nat)
    (h : p.drop k = A ++ X) (hA : A.length = n) (hn : 0 < n) :
    readBytes p k n = some A := by
  have hlen : (p.drop k).length = A.length + X.length := by rw [h]; simp
  rw [List.length_drop] at hlen
  have hk : k + n ≤ p.length := by
    by_cases hkp : k ≤ p.length
    · omega
    · exfalso
      have hnil : p.drop k = [] := List.drop_eq_nil_of_le (by omega)
      rw [hnil] at h
      obtain ⟨hA0, -⟩ := List.append_eq_nil.mp h.symm
      rw [hA0] at hA
      simp at hA
      omega
  unfold readBytes
  rw [if_pos hk, h, take_app _ _ _ hA.symm]

/-- Layout of `parse_version_payload` on a well-formed wire image: every
field is recovered; each received IP is rendered from bytes 12–16 of its
16-byte field; the user agent is the raw bytes following the single length
byte; the final byte is the relay flag. -/
theorem parse_version_payload_wire
    (ver srv : Nat) (ts : Int) (rsrv : Nat) (ipf : List Nat) (port fsrv : Nat)
    (fipf : List Nat) (fport nonce : Nat) (ua : List Nat) (sh relayByte : Nat)
    (hver : ver < 2 ^ 32) (hsrv : srv < 2 ^ 64)
    (hts0 : -(2 ^ 63) ≤ ts) (hts1 : ts < 2 ^ 63)
    (hrsrv : rsrv < 2 ^ 64) (hipf : ipf.length = 16) (hport : port < 2 ^ 16)
    (hfsrv : fsrv < 2 ^ 64) (hfipf : fipf.length = 16) (hfport : fport < 2 ^ 16)
    (hnonce : nonce < 2 ^ 64) (hsh : sh < 2 ^ 32) :
    parse_version_payload (pack32LE ver ++ pack64LE srv ++ pack64sLE ts ++ pack64LE rsrv ++ ipf ++ pack16BE port ++ pack64LE fsrv ++ fipf ++ pack16BE fport ++ pack64LE nonce ++ ua.length :: ua ++ pack32LE sh ++ [relayByte]) =
    some { version := ver, services := srv, timestamp := ts,
           addr_recv := ⟨rsrv, inet_ntoa (ipf.drop 12), port, none⟩,
           addr_from := ⟨fsrv, inet_ntoa (fipf.drop 12), fport, none⟩,
           nonce := nonce, user_agent := utf8DecodeReplace ua,
           start_height := sh, relay := relayByte != 0 } := by
  simp only [List.append_assoc, List.cons_append]
  have d0 : (pack32LE ver ++ (pack64LE srv ++ (pack64sLE ts ++ (pack64LE rsrv ++ (ipf ++ (pack16BE port ++ (pack64LE fsrv ++ (fipf ++ (pack16BE fport ++ (pack64LE nonce ++ (ua.length :: (ua ++ (pack32LE sh ++ [relayByte]))))))))))))).drop 0 = pack32LE ver ++ (pack64LE srv ++ (pack64sLE ts ++ (pack64LE rsrv ++ (ipf ++ (pack16BE port ++ (pack64LE fsrv ++ (fipf ++ (pack16BE fport ++ (pack64LE nonce ++ (ua.length :: (ua ++ (pack32LE sh ++ [relayByte])))))))))))) := by
    rw [List.drop_zero]
  have d4 : (pack32LE ver ++ (pack64LE srv ++ (pack64sLE ts ++ (pack64LE rsrv ++ (ipf ++ (pack16BE port ++ (pack64LE fsrv ++ (fipf ++ (pack16BE fport ++ (pack64LE nonce ++ (ua.length :: (ua ++ (pack32LE sh ++ [relayByte]))))))))))))).drop 4 = pack64LE srv ++ (pack64sLE ts ++ (pack64LE rsrv ++ (ipf ++ (pack16BE port ++ (pack64LE fsrv ++ (fipf ++ (pack16BE fport ++ (pack64LE nonce ++ (ua.length :: (ua ++ (pack32LE sh ++ [relayByte]))))))))))) :=
    drop_step _ 0 4 4 _ _ d0 (length_pack32LE _) (by norm_num)
  have d12 : (pack32LE ver ++ (pack64LE srv ++ (pack64sLE ts ++ (pack64LE rsrv ++ (ipf ++ (pack16BE port ++ (pack64LE fsrv ++ (fipf ++ (pack16BE fport ++ (pack64LE nonce ++ (ua.length :: (ua ++ (pack32LE sh ++ [relayByte]))))))))))))).drop 12 = pack64sLE ts ++ (pack64LE rsrv ++ (ipf ++ (pack16BE port ++ (pack64LE fsrv ++ (fipf ++ (pack16BE fport ++ (pack64LE nonce ++ (ua.length :: (ua ++ (pack32LE sh ++ [relayByte])))))))))) :=
    drop_step _ 4 8 12 _ _ d4 (length_pack64LE _) (by norm_num)
  have d20 : (pack32LE ver ++ (pack64LE srv ++ (pack64sLE ts ++ (pack64LE rsrv ++ (ipf ++ (pack16BE port ++ (pack64LE fsrv ++ (fipf ++ (pack16BE fport ++ (pack64LE nonce ++ (ua.length :: (ua ++ (pack32LE sh ++ [relayByte]))))))))))))).drop 20 = pack64LE rsrv ++ (ipf ++ (pack16BE port ++ (pack64LE fsrv ++ (fipf ++ (pack16BE fport ++ (pack64LE nonce ++ (ua.length :: (ua ++ (pack32LE sh ++ [relayByte]))))))))) :=
    drop_step _ 12 8 20 _ _ d12 (length_pack64sLE _) (by norm_num)
  have d28 : (pack32LE ver ++ (pack64LE srv ++ (pack64sLE ts ++ (pack64LE rsrv ++ (ipf ++ (pack16BE port ++ (pack64LE fsrv ++ (fipf ++ (pack16BE fport ++ (pack64LE nonce ++ (ua.length :: (ua ++ (pack32LE sh ++ [relayByte]))))))))))))).drop 28 = ipf ++ (pack16BE port ++ (pack64LE fsrv ++ (fipf ++ (pack16BE fport ++ (pack64LE nonce ++ (ua.length :: (ua ++ (pack32LE sh ++ [relayByte])))))))) :=
    drop_step _ 20 8 28 _ _ d20 (length_pack64LE _) (by norm_num)
  have d44 : (pack32LE ver ++ (pack64LE srv ++ (pack64sLE ts ++ (pack64LE rsrv ++ (ipf ++ (pack16BE port ++ (pack64LE fsrv ++ (fipf ++ (pack16BE fport ++ (pack64LE nonce ++ (ua.length :: (ua ++ (pack32LE sh ++ [relayByte]))))))))))))).drop 44 = pack16BE port ++ (pack64LE fsrv ++ (fipf ++ (pack16BE fport ++ (pack64LE nonce ++ (ua.length :: (ua ++ (pack32LE sh ++ [relayByte]))))))) :=
    drop_step _ 28 16 44 _ _ d28 (hipf) (by norm_num)
  have d46 : (pack32LE ver ++ (pack64LE srv ++ (pack64sLE ts ++ (pack64LE rsrv ++ (ipf ++ (pack16BE port ++ (pack64LE fsrv ++ (fipf ++ (pack16BE fport ++ (pack64LE nonce ++ (ua.length :: (ua ++ (pack32LE sh ++ [relayByte]))))))))))))).drop 46 = pack64LE fsrv ++ (fipf ++ (pack16BE fport ++ (pack64LE nonce ++ (ua.length :: (ua ++ (pack32LE sh ++ [relayByte])))))) :=
    drop_step _ 44 2 46 _ _ d44 (length_pack16BE _) (by norm_num)
  have d54 : (pack32LE ver ++ (pack64LE srv ++ (pack64sLE ts ++ (pack64LE rsrv ++ (ipf ++ (pack16BE port ++ (pack64LE fsrv ++ (fipf ++ (pack16BE fport ++ (pack64LE nonce ++ (ua.length :: (ua ++ (pack32LE sh ++ [relayByte]))))))))))))).drop 54 = fipf ++ (pack16BE fport ++ (pack64LE nonce ++ (ua.length :: (ua ++ (pack32LE sh ++ [relayByte]))))) :=
    drop_step _ 46 8 54 _ _ d46 (length_pack64LE _) (by norm_num)
  have d70 : (pack32LE ver ++ (pack64LE srv ++ (pack64sLE ts ++ (pack64LE rsrv ++ (ipf ++ (pack16BE port ++ (pack64LE fsrv ++ (fipf ++ (pack16BE fport ++ (pack64LE nonce ++ (ua.length :: (ua ++ (pack32LE sh ++ [relayByte]))))))))))))).drop 70 = pack16BE fport ++ (pack64LE nonce ++ (ua.length :: (ua ++ (pack32LE sh ++ [relayByte])))) :=
    drop_step _ 54 16 70 _ _ d54 (hfipf) (by norm_num)
  have d72 : (pack32LE ver ++ (pack64LE srv ++ (pack64sLE ts ++ (pack64LE rsrv ++ (ipf ++ (pack16BE port ++ (pack64LE fsrv ++ (fipf ++ (pack16BE fport ++ (pack64LE nonce ++ (ua.length :: (ua ++ (pack32LE sh ++ [relayByte]))))))))))))).drop 72 = pack64LE nonce ++ (ua.length :: (ua ++ (pack32LE sh ++ [relayByte]))) :=
    drop_step _ 70 2 72 _ _ d70 (length_pack16BE _) (by norm_num)
  have d80 : (pack32LE ver ++ (pack64LE srv ++ (pack64sLE ts ++ (pack64LE rsrv ++ (ipf ++ (pack16BE port ++ (pack64LE fsrv ++ (fipf ++ (pack16BE fport ++ (pack64LE nonce ++ (ua.length :: (ua ++ (pack32LE sh ++ [relayByte]))))))))))))).drop 80 = ua.length :: (ua ++ (pack32LE sh ++ [relayByte])) :=
    drop_step _ 72 8 80 _ _ d72 (length_pack64LE _) (by norm_num)
  have hsplit40 : (ipf ++ (pack16BE port ++ (pack64LE fsrv ++ (fipf ++ (pack16BE fport ++ (pack64LE nonce ++ (ua.length :: (ua ++ (pack32LE sh ++ [relayByte]))))))))).drop 12 = ipf.drop 12 ++ (pack16BE port ++ (pack64LE fsrv ++ (fipf ++ (pack16BE fport ++ (pack64LE nonce ++ (ua.length :: (ua ++ (pack32LE sh ++ [relayByte])))))))) := by
    rw [List.drop_append_eq_append_drop, hipf]
    simp
  have d40 : (pack32LE ver ++ (pack64LE srv ++ (pack64sLE ts ++ (pack64LE rsrv ++ (ipf ++ (pack16BE port ++ (pack64LE fsrv ++ (fipf ++ (pack16BE fport ++ (pack64LE nonce ++ (ua.length :: (ua ++ (pack32LE sh ++ [relayByte]))))))))))))).drop 40 = ipf.drop 12 ++ (pack16BE port ++ (pack64LE fsrv ++ (fipf ++ (pack16BE fport ++ (pack64LE nonce ++ (ua.length :: (ua ++ (pack32LE sh ++ [relayByte])))))))) := by
    have h2 := congrArg (List.drop 12) d28
    rw [List.drop_drop, hsplit40] at h2
    simpa using h2
  have hsplit66 : (fipf ++ (pack16BE fport ++ (pack64LE nonce ++ (ua.length :: (ua ++ (pack32LE sh ++ [relayByte])))))).drop 12 = fipf.drop 12 ++ (pack16BE fport ++ (pack64LE nonce ++ (ua.length :: (ua ++ (pack32LE sh ++ [relayByte]))))) := by
    rw [List.drop_append_eq_append_drop, hfipf]
    simp
  have d66 : (pack32LE ver ++ (pack64LE srv ++ (pack64sLE ts ++ (pack64LE rsrv ++ (ipf ++ (pack16BE port ++ (pack64LE fsrv ++ (fipf ++ (pack16BE fport ++ (pack64LE nonce ++ (ua.length :: (ua ++ (pack32LE sh ++ [relayByte]))))))))))))).drop 66 = fipf.drop 12 ++ (pack16BE fport ++ (pack64LE nonce ++ (ua.length :: (ua ++ (pack32LE sh ++ [relayByte]))))) := by
    have h2 := congrArg (List.drop 12) d54
    rw [List.drop_drop, hsplit66] at h2
    simpa using h2
  have d81 : (pack32LE ver ++ (pack64LE srv ++ (pack64sLE ts ++ (pack64LE rsrv ++ (ipf ++ (pack16BE port ++ (pack64LE fsrv ++ (fipf ++ (pack16BE fport ++ (pack64LE nonce ++ (ua.length :: (ua ++ (pack32LE sh ++ [relayByte]))))))))))))).drop 81 = ua ++ (pack32LE sh ++ [relayByte]) := by
    have h2 := congrArg (List.drop 1) d80
    rw [List.drop_drop] at h2
    simpa using h2
  have dH : (pack32LE ver ++ (pack64LE srv ++ (pack64sLE ts ++ (pack64LE rsrv ++ (ipf ++ (pack16BE port ++ (pack64LE fsrv ++ (fipf ++ (pack16BE fport ++ (pack64LE nonce ++ (ua.length :: (ua ++ (pack32LE sh ++ [relayByte]))))))))))))).drop (81 + ua.length) = pack32LE sh ++ [relayByte] :=
    drop_step _ 81 ua.length (81 + ua.length) _ _ d81 rfl rfl
  have dR : (pack32LE ver ++ (pack64LE srv ++ (pack64sLE ts ++ (pack64LE rsrv ++ (ipf ++ (pack16BE port ++ (pack64LE fsrv ++ (fipf ++ (pack16BE fport ++ (pack64LE nonce ++ (ua.length :: (ua ++ (pack32LE sh ++ [relayByte]))))))))))))).drop (85 + ua.length) = [relayByte] := by
    have h2 := drop_step _ (81 + ua.length) 4 (81 + ua.length + 4) _ _ dH
      (length_pack32LE _) rfl
    rw [show 85 + ua.length = 81 + ua.length + 4 from by omega]
    exact h2
  have hlenP : (pack32LE ver ++ (pack64LE srv ++ (pack64sLE ts ++ (pack64LE rsrv ++ (ipf ++ (pack16BE port ++ (pack64LE fsrv ++ (fipf ++ (pack16BE fport ++ (pack64LE nonce ++ (ua.length :: (ua ++ (pack32LE sh ++ [relayByte]))))))))))))).length = 86 + ua.length := by
    have h2 := congrArg List.length dR
    rw [List.length_drop] at h2
    simp only [List.length_cons, List.length_nil] at h2
    omega
  have r0 : readU32LEat (pack32LE ver ++ (pack64LE srv ++ (pack64sLE ts ++ (pack64LE rsrv ++ (ipf ++ (pack16BE port ++ (pack64LE fsrv ++ (fipf ++ (pack16BE fport ++ (pack64LE nonce ++ (ua.length :: (ua ++ (pack32LE sh ++ [relayByte]))))))))))))) 0 = some ver := by
    unfold readU32LEat
    rw [readBytes_of_drop _ 0 4 _ _ d0 (length_pack32LE _) (by norm_num),
      Option.map_some', unpack32LE_pack32LE _ hver]
  have r4 : readU64LEat (pack32LE ver ++ (pack64LE srv ++ (pack64sLE ts ++ (pack64LE rsrv ++ (ipf ++ (pack16BE port ++ (pack64LE fsrv ++ (fipf ++ (pack16BE fport ++ (pack64LE nonce ++ (ua.length :: (ua ++ (pack32LE sh ++ [relayByte]))))))))))))) 4 = some srv := by
    unfold readU64LEat
    rw [readBytes_of_drop _ 4 8 _ _ d4 (length_pack64LE _) (by norm_num),
      Option.map_some', unpack64LE_pack64LE _ hsrv]
  have r12 : readI64LEat (pack32LE ver ++ (pack64LE srv ++ (pack64sLE ts ++ (pack64LE rsrv ++ (ipf ++ (pack16BE port ++ (pack64LE fsrv ++ (fipf ++ (pack16BE fport ++ (pack64LE nonce ++ (ua.length :: (ua ++ (pack32LE sh ++ [relayByte]))))))))))))) 12 = some ts := by
    unfold readI64LEat
    rw [readBytes_of_drop _ 12 8 _ _ d12 (length_pack64sLE _) (by norm_num),
      Option.map_some', unpack64sLE_pack64sLE _ hts0 hts1]
  have r20 : readU64LEat (pack32LE ver ++ (pack64LE srv ++ (pack64sLE ts ++ (pack64LE rsrv ++ (ipf ++ (pack16BE port ++ (pack64LE fsrv ++ (fipf ++ (pack16BE fport ++ (pack64LE nonce ++ (ua.length :: (ua ++ (pack32LE sh ++ [relayByte]))))))))))))) 20 = some rsrv := by
    unfold readU64LEat
    rw [readBytes_of_drop _ 20 8 _ _ d20 (length_pack64LE _) (by norm_num),
      Option.map_some', unpack64LE_pack64LE _ hrsrv]
  have r40 : readBytes (pack32LE ver ++ (pack64LE srv ++ (pack64sLE ts ++ (pack64LE rsrv ++ (ipf ++ (pack16BE port ++ (pack64LE fsrv ++ (fipf ++ (pack16BE fport ++ (pack64LE nonce ++ (ua.length :: (ua ++ (pack32LE sh ++ [relayByte]))))))))))))) 40 4 = some (ipf.drop 12) :=
    readBytes_of_drop _ 40 4 _ _ d40 (by rw [List.length_drop, hipf]) (by norm_num)
  have r44 : readU16BE (pack32LE ver ++ (pack64LE srv ++ (pack64sLE ts ++ (pack64LE rsrv ++ (ipf ++ (pack16BE port ++ (pack64LE fsrv ++ (fipf ++ (pack16BE fport ++ (pack64LE nonce ++ (ua.length :: (ua ++ (pack32LE sh ++ [relayByte]))))))))))))) 44 = some port := by
    unfold readU16BE
    rw [readBytes_of_drop _ 44 2 _ _ d44 (length_pack16BE _) (by norm_num),
      Option.map_some', unpack16BE_pack16BE _ hport]
  have r46 : readU64LEat (pack32LE ver ++ (pack64LE srv ++ (pack64sLE ts ++ (pack64LE rsrv ++ (ipf ++ (pack16BE port ++ (pack64LE fsrv ++ (fipf ++ (pack16BE fport ++ (pack64LE nonce ++ (ua.length :: (ua ++ (pack32LE sh ++ [relayByte]))))))))))))) 46 = some fsrv := by
    unfold readU64LEat
    rw [readBytes_of_drop _ 46 8 _ _ d46 (length_pack64LE _) (by norm_num),
      Option.map_some', unpack64LE_pack64LE _ hfsrv]
  have r66 : readBytes (pack32LE ver ++ (pack64LE srv ++ (pack64sLE ts ++ (pack64LE rsrv ++ (ipf ++ (pack16BE port ++ (pack64LE fsrv ++ (fipf ++ (pack16BE fport ++ (pack64LE nonce ++ (ua.length :: (ua ++ (pack32LE sh ++ [relayByte]))))))))))))) 66 4 = some (fipf.drop 12) :=
    readBytes_of_drop _ 66 4 _ _ d66 (by rw [List.length_drop, hfipf]) (by norm_num)
  have r70 : readU16BE (pack32LE ver ++ (pack64LE srv ++ (pack64sLE ts ++ (pack64LE rsrv ++ (ipf ++ (pack16BE port ++ (pack64LE fsrv ++ (fipf ++ (pack16BE fport ++ (pack64LE nonce ++ (ua.length :: (ua ++ (pack32LE sh ++ [relayByte]))))))))))))) 70 = some fport := by
    unfold readU16BE
    rw [readBytes_of_drop _ 70 2 _ _ d70 (length_pack16BE _) (by norm_num),
      Option.map_some', unpack16BE_pack16BE _ hfport]
  have r72 : readU64LEat (pack32LE ver ++ (pack64LE srv ++ (pack64sLE ts ++ (pack64LE rsrv ++ (ipf ++ (pack16BE port ++ (pack64LE fsrv ++ (fipf ++ (pack16BE fport ++ (pack64LE nonce ++ (ua.length :: (ua ++ (pack32LE sh ++ [relayByte]))))))))))))) 72 = some nonce := by
    unfold readU64LEat
    rw [readBytes_of_drop _ 72 8 _ _ d72 (length_pack64LE _) (by norm_num),
      Option.map_some', unpack64LE_pack64LE _ hnonce]
  have r80 : (pack32LE ver ++ (pack64LE srv ++ (pack64sLE ts ++ (pack64LE rsrv ++ (ipf ++ (pack16BE port ++ (pack64LE fsrv ++ (fipf ++ (pack16BE fport ++ (pack64LE nonce ++ (ua.length :: (ua ++ (pack32LE sh ++ [relayByte])))))))))))))[80]? = some ua.length := by
    have h2 := List.getElem?_drop (pack32LE ver ++ (pack64LE srv ++ (pack64sLE ts ++ (pack64LE rsrv ++ (ipf ++ (pack16BE port ++ (pack64LE fsrv ++ (fipf ++ (pack16BE fport ++ (pack64LE nonce ++ (ua.length :: (ua ++ (pack32LE sh ++ [relayByte]))))))))))))) 80 0
    rw [d80] at h2
    simpa using h2.symm
  have rH : readU32LEat (pack32LE ver ++ (pack64LE srv ++ (pack64sLE ts ++ (pack64LE rsrv ++ (ipf ++ (pack16BE port ++ (pack64LE fsrv ++ (fipf ++ (pack16BE fport ++ (pack64LE nonce ++ (ua.length :: (ua ++ (pack32LE sh ++ [relayByte]))))))))))))) (81 + ua.length) = some sh := by
    unfold readU32LEat
    rw [readBytes_of_drop _ (81 + ua.length) 4 _ _ dH (length_pack32LE _) (by norm_num),
      Option.map_some', unpack32LE_pack32LE _ hsh]
  have rGet : (pack32LE ver ++ (pack64LE srv ++ (pack64sLE ts ++ (pack64LE rsrv ++ (ipf ++ (pack16BE port ++ (pack64LE fsrv ++ (fipf ++ (pack16BE fport ++ (pack64LE nonce ++ (ua.length :: (ua ++ (pack32LE sh ++ [relayByte]))))))))))))).getD (85 + ua.length) 0 = relayByte := by
    rw [List.getD_eq_getElem?_getD]
    have h2 := List.getElem?_drop (pack32LE ver ++ (pack64LE srv ++ (pack64sLE ts ++ (pack64LE rsrv ++ (ipf ++ (pack16BE port ++ (pack64LE fsrv ++ (fipf ++ (pack16BE fport ++ (pack64LE nonce ++ (ua.length :: (ua ++ (pack32LE sh ++ [relayByte]))))))))))))) (85 + ua.length) 0
    rw [dR] at h2
    simp only [Nat.add_zero] at h2
    rw [← h2]
    rfl
  have hua81 : ((pack32LE ver ++ (pack64LE srv ++ (pack64sLE ts ++ (pack64LE rsrv ++ (ipf ++ (pack16BE port ++ (pack64LE fsrv ++ (fipf ++ (pack16BE fport ++ (pack64LE nonce ++ (ua.length :: (ua ++ (pack32LE sh ++ [relayByte]))))))))))))).drop 81).take ua.length = ua := by
    rw [d81, take_app _ _ _ rfl]
  unfold parse_version_payload
  rw [r0, Option.some_bind, r4, Option.some_bind, r12, Option.some_bind,
    r20, Option.some_bind, r40, Option.some_bind, r44, Option.some_bind,
    r46, Option.some_bind, r66, Option.some_bind, r70, Option.some_bind,
    r72, Option.some_bind, r80, Option.some_bind, rH, Option.map_some']
  rw [hua81, if_pos (by rw [hlenP]; omega), rGet]


/-! ## Version payload: user agent and relay -/

/-- What a successful `parse_version_payload` says about payload length, the
user agent and the relay flag, in terms of the single length byte at offset
80. -/
theorem parse_version_payload_fields (p : List Nat) (vp : VersionPayloadT)
    (h : parse_version_payload p = some vp) :
    80 < p.length ∧
    vp.user_agent = utf8DecodeReplace ((p.drop 81).take (p.getD 80 0)) ∧
    vp.relay = (if 85 + p.getD 80 0 < p.length
      then p.getD (85 + p.getD 80 0) 0 != 0 else true) := by
  unfold parse_version_payload at h
  rw [Option.bind_eq_some] at h
  obtain ⟨ver, -, h⟩ := h
  rw [Option.bind_eq_some] at h
  obtain ⟨srv, -, h⟩ := h
  rw [Option.bind_eq_some] at h
  obtain ⟨ts, -, h⟩ := h
  rw [Option.bind_eq_some] at h
  obtain ⟨rsrv, -, h⟩ := h
  rw [Option.bind_eq_some] at h
  obtain ⟨rib, -, h⟩ := h
  rw [Option.bind_eq_some] at h
  obtain ⟨rport, -, h⟩ := h
  rw [Option.bind_eq_some] at h
  obtain ⟨fsrv, -, h⟩ := h
  rw [Option.bind_eq_some] at h
  obtain ⟨fib, -, h⟩ := h
  rw [Option.bind_eq_some] at h
  obtain ⟨fport, -, h⟩ := h
  rw [Option.bind_eq_some] at h
  obtain ⟨nonce, -, h⟩ := h
  rw [Option.bind_eq_some] at h
  obtain ⟨ual, hual, h⟩ := h
  rw [Option.map_eq_some'] at h
  obtain ⟨sh, -, hvp⟩ := h
  have hlen : 80 < p.length := by
    by_contra hc
    rw [List.getElem?_eq_none (by omega)] at hual
    simp at hual
  have hget : p.getD 80 0 = ual := by
    rw [List.getD_eq_getElem?_getD, hual]
    rfl
  subst hvp
  exact ⟨hlen, by rw [hget], by rw [hget]⟩

/-- C5: `parse_version_payload` returns relay = true when the payload ends
immediately after `start_height` (no relay byte), returns the boolean value
of the relay byte when one is present, and `create_version_message` always
ends its payload with relay byte `1` (true), whatever the configured
protocol version. -/
theorem C5_relay :
    (∀ (p : List Nat) (vp : VersionPayloadT), parse_version_payload p = some vp →
      p.length = 85 + p.getD 80 0 → vp.relay = true) ∧
    (∀ (p : List Nat) (vp : VersionPayloadT), parse_version_payload p = some vp →
      85 + p.getD 80 0 < p.length →
      vp.relay = (p.getD (85 + p.getD 80 0) 0 != 0)) ∧
    (∀ (cfg : ChainConfigT) (recv_ip : List Char) (recv_port start_height : Nat)
        (timestamp : Int) (nonce : Nat) (m : List Nat),
      create_version_message cfg recv_ip recv_port start_height timestamp nonce =
        some m → m.getLast? = some 1) := by
  refine ⟨?_, ?_, ?_⟩
  · intro p vp h hend
    obtain ⟨-, -, hr⟩ := parse_version_payload_fields p vp h
    rw [hr, if_neg (by omega)]
  · intro p vp h hpresent
    obtain ⟨-, -, hr⟩ := parse_version_payload_fields p vp h
    rw [hr, if_pos hpresent]
  · intro cfg recv_ip recv_port start_height timestamp nonce m h
    unfold create_version_message at h
    rw [Option.bind_eq_some] at h
    obtain ⟨payload, hpay, hmsg⟩ := h
    have hpl : payload.getLast? = some 1 := by
      unfold create_version_payload at hpay
      split at hpay
      · rw [Option.map_eq_some'] at hpay
        obtain ⟨ipf, -, hp⟩ := hpay
        rw [← hp, ← List.head?_reverse]
        simp [List.reverse_append]
      · exact absurd hpay (by simp)
    obtain ⟨t, ht⟩ : ∃ t, payload.reverse = 1 :: t := by
      cases hc : payload.reverse with
      | nil =>
        have h2 := List.head?_reverse payload
        rw [hc, hpl] at h2
        exact absurd h2 (by simp)
      | cons x xs =>
        have h2 := List.head?_reverse payload
        rw [hc, hpl] at h2
        simp only [List.head?_cons, Option.some_inj] at h2
        exact ⟨xs, by rw [h2]⟩
    unfold create_message at hmsg
    rw [Option.bind_eq_some] at hmsg
    obtain ⟨cb, -, hmsg⟩ := hmsg
    split at hmsg
    · simp only [Option.some_inj] at hmsg
      rw [← hmsg, ← List.head?_reverse]
      simp [List.reverse_append, ht]
    · exact absurd hmsg (by simp)

theorem C5_relay_witness :
    ((parse_version_payload (List.replicate 80 0 ++ [0] ++ [0, 0, 0, 0])).map
        (fun vp => vp.relay) = some true ∧
      (List.replicate 80 0 ++ [0] ++ [0, 0, 0, 0] : List Nat).length =
        85 + (List.replicate 80 0 ++ [0] ++ [0, 0, 0, 0] : List Nat).getD 80 0) ∧
    ((parse_version_payload (List.replicate 80 0 ++ [0] ++ [0, 0, 0, 0, 0])).map
        (fun vp => vp.relay) = some false ∧
      85 + (List.replicate 80 0 ++ [0] ++ [0, 0, 0, 0, 0] : List Nat).getD 80 0 <
        (List.replicate 80 0 ++ [0] ++ [0, 0, 0, 0, 0] : List Nat).length) ∧
    (create_version_message ⟨['T'], 70015, [0xf9, 0xbe, 0xb4, 0xd9]⟩
        "1.2.3.4".data 8333 0 0 0).map List.getLast? = some (some 1) := by
  refine ⟨⟨?_, by decide⟩, ⟨?_, by decide⟩, ?_⟩
  · cases hvp : parse_version_payload (List.replicate 80 0 ++ [0] ++ [0, 0, 0, 0]) with
    | none => exact absurd hvp (by decide)
    | some vp =>
      rw [Option.map_some', Option.some_inj]
      exact C5_relay.1 _ vp hvp (by decide)
  · cases hvp : parse_version_payload (List.replicate 80 0 ++ [0] ++ [0, 0, 0, 0, 0]) with
    | none => exact absurd hvp (by decide)
    | some vp =>
      rw [Option.map_some', Option.some_inj]
      rw [C5_relay.2.1 _ vp hvp (by decide)]
      decide
  · cases hm : create_version_message ⟨['T'], 70015, [0xf9, 0xbe, 0xb4, 0xd9]⟩
        "1.2.3.4".data 8333 0 0 0 with
    | none =>
      have hs : (create_version_message ⟨['T'], 70015, [0xf9, 0xbe, 0xb4, 0xd9]⟩
          "1.2.3.4".data 8333 0 0 0).isSome = true := rfl
      rw [hm] at hs
      exact absurd hs (by simp)
    | some m =>
      rw [Option.map_some', Option.some_inj]
      exact C5_relay.2.2 _ _ _ _ _ _ m hm

/-- The user-agent field as the specification describes it: a Bitcoin varint
length at offset 80 followed by that many raw bytes, decoded with UTF-8
replacement.  This is the spec-side reference reading, to be compared with
what `parse_version_payload` actually does. -/
def userAgentPerSpecVarint (p : List Nat) : Option (List Char) :=
  (read_varint p 80).map fun nl => utf8DecodeReplace ((p.drop nl.2).take nl.1)

/-- C4, amended: `parse_version_payload` reads the user-agent length as the
single raw byte at offset 80 — not as a full Bitcoin varint.  The two
readings agree exactly when that byte is below `0xFD`; the claim's varint
reading (including 0xFD/0xFE/0xFF prefixes) does not hold in general. -/
theorem C4_user_agent_single_byte (p : List Nat) (vp : VersionPayloadT)
    (h : parse_version_payload p = some vp) (hb : p.getD 80 0 < 0xFD) :
    userAgentPerSpecVarint p = some vp.user_agent := by
  obtain ⟨hlen, hua, -⟩ := parse_version_payload_fields p vp h
  unfold userAgentPerSpecVarint read_varint
  have h80 : p[80]? = some (p.getD 80 0) := by
    rw [List.getElem?_eq_getElem hlen, List.getD_eq_getElem?_getD,
      List.getElem?_eq_getElem hlen]
    rfl
  rw [h80]
  simp only [Option.some_bind]
  rw [if_pos hb, Option.map_some', Option.some_inj, hua]

theorem C4_user_agent_single_byte_witness :
    ((parse_version_payload (List.replicate 80 0 ++ [2, 65, 66] ++ [0, 0, 0, 0])).isSome ∧
      (List.replicate 80 0 ++ [2, 65, 66] ++ [0, 0, 0, 0] : List Nat).getD 80 0 < 0xFD) ∧
    userAgentPerSpecVarint (List.replicate 80 0 ++ [2, 65, 66] ++ [0, 0, 0, 0]) =
      (parse_version_payload (List.replicate 80 0 ++ [2, 65, 66] ++ [0, 0, 0, 0])).map
        (fun vp => vp.user_agent) := by
  refine ⟨⟨by decide, by decide⟩, ?_⟩
  cases hvp : parse_version_payload (List.replicate 80 0 ++ [2, 65, 66] ++ [0, 0, 0, 0]) with
  | none => exact absurd hvp (by decide)
  | some vp =>
    rw [Option.map_some']
    exact C4_user_agent_single_byte _ vp hvp (by decide)

theorem inet_pton4_length (s : List Char) (bs : List Nat)
    (h : inet_pton4 s = some bs) : bs.length = 4 := by
  unfold inet_pton4 at h
  split at h
  case h_2 => exact absurd h (by simp)
  case h_1 =>
    split at h
    case h_2 => exact absurd h (by simp)
    case h_1 a b c d ha hb hc hd =>
      obtain rfl : [a, b, c, d] = bs := by injection h
      rfl

/-- C3, amended: for every chain configuration whose advertised values fit
their wire fields, every receiver IP in IPv4 dotted-quad form (the IPv6 case
fails, see the counterexample), every receiver port and start height,
parsing the payload of the version message built by
`create_version_message` recovers the advertised protocol version, the
receiver endpoint in `addr_recv`, the user agent, the start height, and
relay = true. -/
theorem C3_version_roundtrip (cfg : ChainConfigT) (recv_ip : List Char)
    (recv_port start_height : Nat) (timestamp : Int) (nonce : Nat)
    (hnc : ':' ∉ recv_ip) (hip : (inet_pton4 recv_ip).isSome)
    (hver : cfg.protocol_version < 2 ^ 32)
    (hts0 : -(2 ^ 63) ≤ timestamp) (hts1 : timestamp < 2 ^ 63)
    (hport : recv_port < 2 ^ 16) (hnonce : nonce < 2 ^ 64)
    (hua : (utf8Encode (versionUserAgent cfg.name)).length < 256)
    (hsh : start_height < 2 ^ 32) :
    create_version_message cfg recv_ip recv_port start_height timestamp nonce =
      (create_version_payload cfg recv_ip recv_port start_height timestamp nonce).bind
        (create_message cfg.magic_bytes "version".data) ∧
    ((create_version_payload cfg recv_ip recv_port start_height timestamp nonce).bind
        parse_version_payload).map
      (fun vp => (vp.version, vp.addr_recv.ip, vp.addr_recv.port,
        vp.user_agent, vp.start_height, vp.relay)) =
    some (cfg.protocol_version, recv_ip, recv_port,
      versionUserAgent cfg.name, start_height, true) := by
  constructor
  · rfl
  · obtain ⟨bs, hbs⟩ := Option.isSome_iff_exists.mp hip
    have hbs4 : bs.length = 4 := inet_pton4_length _ _ hbs
    unfold create_version_payload
    rw [if_pos ⟨hver, hts0, hts1, hport, hnonce, hua, hsh⟩]
    unfold recvIpField
    rw [if_neg hnc, hbs, Option.map_some', Option.map_some', Option.some_bind]
    rw [parse_version_payload_wire cfg.protocol_version SERVICES_NODE_NETWORK
      timestamp SERVICES_NODE_NETWORK (v4MappedMarker ++ bs) recv_port
      SERVICES_NODE_NETWORK (v4MappedMarker ++ [0, 0, 0, 0]) 0 nonce
      (utf8Encode (versionUserAgent cfg.name)) start_height 1
      hver (by norm_num [SERVICES_NODE_NETWORK]) hts0 hts1
      (by norm_num [SERVICES_NODE_NETWORK])
      (by simp [v4MappedMarker, hbs4]) hport
      (by norm_num [SERVICES_NODE_NETWORK]) (by simp [v4MappedMarker])
      (by norm_num) hnonce hsh]
    rw [Option.map_some']
    rw [drop_app v4MappedMarker bs 12 rfl, inet_ntoa_inet_pton4 _ _ hbs,
      utf8DecodeReplace_utf8Encode]
    simp

theorem C3_version_roundtrip_witness :
    ((':' ∉ "1.2.3.4".data) ∧ (inet_pton4 "1.2.3.4".data).isSome ∧
      (70015 : Nat) < 2 ^ 32 ∧ (-(2 ^ 63) : Int) ≤ 1700000000 ∧
      (1700000000 : Int) < 2 ^ 63 ∧ (8333 : Nat) < 2 ^ 16 ∧ (42 : Nat) < 2 ^ 64 ∧
      (utf8Encode (versionUserAgent ['T'])).length < 256 ∧ (500 : Nat) < 2 ^ 32) ∧
    ((create_version_payload ⟨['T'], 70015, [0xf9, 0xbe, 0xb4, 0xd9]⟩
        "1.2.3.4".data 8333 500 1700000000 42).bind parse_version_payload).map
      (fun vp => (vp.version, vp.addr_recv.ip, vp.addr_recv.port,
        vp.user_agent, vp.start_height, vp.relay)) =
    some (70015, "1.2.3.4".data, 8333, versionUserAgent ['T'], 500, true) :=
  ⟨⟨by decide, by decide, by decide, by decide, by decide, by decide, by decide,
      by decide, by decide⟩,
    (C3_version_roundtrip ⟨['T'], 70015, [0xf9, 0xbe, 0xb4, 0xd9]⟩
      "1.2.3.4".data 8333 500 1700000000 42 (by decide) (by decide) (by decide)
      (by decide) (by decide) (by decide) (by decide) (by decide) (by decide)).2⟩

/-- C3, counterexample: for the native IPv6 receiver address `"::1"` the
round trip does not recover the endpoint — `parse_version_payload` always
renders only the last four bytes of the 16-byte IP field through
`inet_ntoa`, so the parsed `addr_recv.ip` is `"0.0.0.1"`, not `"::1"`. -/
theorem C3_counterexample :
    ((create_version_payload ⟨['T'], 70015, [0xf9, 0xbe, 0xb4, 0xd9]⟩
        [':', ':', '1'] 8333 0 0 0).bind parse_version_payload).map
      (fun vp => vp.addr_recv.ip) = some ['0', '.', '0', '.', '0', '.', '1'] ∧
    (['0', '.', '0', '.', '0', '.', '1'] : List Char) ≠ [':', ':', '1'] := by
  constructor <;> decide

/-- C4, counterexample: a version payload whose user agent is encoded per the
claim — varint `FD 02 00` (length 2) then `"AB"`, then `start_height` and a
relay byte — is rejected by `parse_version_payload` (it reads length byte
`0xFD = 253`, runs past the end, and the `start_height` unpack raises),
while the spec's varint reading extracts `"AB"`. -/
theorem C4_counterexample :
    parse_version_payload
      (List.replicate 80 0 ++ [0xFD, 2, 0, 65, 66] ++ [0, 0, 0, 0] ++ [1]) = none ∧
    userAgentPerSpecVarint
      (List.replicate 80 0 ++ [0xFD, 2, 0, 65, 66] ++ [0, 0, 0, 0] ++ [1]) =
      some ['A', 'B'] := by
  constructor <;> decide

end AtlasP2P
